import Mathlib

/-!
A shallow embedding of the tenant migration runner
(`scripts/run_migrations/run_tenant_migrations.py`) together with proofs
about its orchestration engine.

Modelling conventions:
* The per-tenant `migration_history` table is a list of rows.  The SQL
  `applied_at TIMESTAMP DEFAULT CURRENT_TIMESTAMP` column is modelled by a
  per-tenant monotone counter `clock`, so a later insert into the same
  tenant carries a strictly larger timestamp (timestamps are only ever
  compared within one tenant).
* Fallible database operations return `Except`; a raised exception is the
  `error` case.  Two static failure switches on a tenant model the external
  failure modes the script reacts to: `unreachable` (every connection to
  that tenant database raises, so the tracking table can be neither created
  nor read) and `recordInsertFails` (the INSERT issued by
  `record_migration_success` raises; it runs on a fresh connection and in a
  separate transaction from the schema commit, so it can fail after the
  schema change is already committed).
* The SHA-256 hex digest of `get_migration_hash` is an uninterpreted
  function parameter `hashFn` of type `String → String`.
* `list.sort()` on filenames and SQL `ORDER BY db_name` are both ascending
  lexicographic sorts by Unicode code point; they are modelled with
  `List.insertionSort` over the executable lexicographic order `strLe`.
-/

/-- Lexicographic comparison of character lists by code point; this is the
ordering Python uses for `str` (and hence `Path`) comparison. -/
def charListLe : List Char → List Char → Bool
  | [], _ => true
  | _ :: _, [] => false
  | a :: as, b :: bs => if a = b then charListLe as bs else decide (a < b)

/-- Lexicographic comparison of strings by code point. -/
def strLe (a b : String) : Bool := charListLe a.data b.data

/-- Value of the `status` column of one `migration_history` row. -/
inductive Status where
  | applied
  | checkpoint
  | rolled_back
deriving DecidableEq, Repr

/-- One row of the per-tenant `migration_history` table created by
`create_migration_tracking_table` (columns other than the serial id). -/
structure HistoryRow where
  migration_file : String
  migration_hash : String
  applied_at : Nat
  status : Status
  checkpoint_data : Option String
deriving DecidableEq, Repr

/-- A migration unit as discovered in `migrations/tenant_versions`:
its filename, its raw content (the input of `get_migration_hash`), and its
dynamically loaded `upgrade` entry point.  `upgrade = none` models a module
with no `upgrade` attribute (line 269/277); `upgrade = some up` models a
module whose `upgrade()` either transforms the schema (the table list) or
raises. -/
structure MigrationFile where
  name : String
  content : String
  upgrade : Option (List String → Except String (List String))

/-- The modelled state of one tenant database: its public schema (table
names), its `migration_history` table (existence flag plus rows), the
timestamp counter, and the two static failure switches described in the
header comment. -/
structure TenantDB where
  tables : List String
  trackingExists : Bool
  history : List HistoryRow
  clock : Nat
  unreachable : Bool
  recordInsertFails : Bool
deriving DecidableEq, Repr

/-- Model of `get_migration_hash` (lines 96-100): SHA-256 hex digest of the file
content, abstracted as `hashFn`. -/
def get_migration_hash (hashFn : String → String) (f : MigrationFile) : String :=
  hashFn f.content

/-- Model of `create_migration_tracking_table` (lines 70-94): CREATE TABLE IF NOT
EXISTS; raises when the tenant database cannot be reached. -/
def create_migration_tracking_table (db : TenantDB) : Except String TenantDB :=
  if db.unreachable then .error "connection failed"
  else .ok { db with trackingExists := true }

/-- Model of `get_applied_migrations` (lines 102-125): rows with `status = applied`
ordered by `applied_at`, returned as (file, hash, applied_at) triples; any
exception (no tracking table, unreachable database) yields `[]`. -/
def get_applied_migrations (db : TenantDB) : List (String × String × Nat) :=
  if db.unreachable || !db.trackingExists then []
  else
    (List.insertionSort (fun a b => a.applied_at ≤ b.applied_at)
        (db.history.filter (fun r => r.status == Status.applied))).map
      (fun r => (r.migration_file, r.migration_hash, r.applied_at))

/-- The `checkpoint_data` payload built at lines 149-153:
`str` of a dict holding timestamp, current table list and checkpoint name. -/
def checkpointPayload (timestamp : Nat) (tables : List String) (name : String) : String :=
  "\x7b" ++ "timestamp: " ++ toString timestamp ++ ", tables: " ++ toString tables
    ++ ", checkpoint_name: " ++ name ++ "\x7d"

/-- Model of `create_checkpoint` (lines 127-164): reads the current table list and
appends a `checkpoint` row carrying the payload; raises when the tenant is
unreachable or the tracking table does not exist (the INSERT fails). -/
def create_checkpoint (db : TenantDB) (checkpoint_name : String) : Except String TenantDB :=
  if db.unreachable || !db.trackingExists then .error "cannot write checkpoint"
  else .ok { db with
    history := db.history ++
      [{ migration_file := checkpoint_name
         migration_hash := "checkpoint"
         applied_at := db.clock
         status := Status.checkpoint
         checkpoint_data := some (checkpointPayload db.clock db.tables checkpoint_name) }]
    clock := db.clock + 1 }

/-- The rows selected at lines 180-186: `migration_file = name` and
`status = checkpoint`. -/
def checkpointRows (db : TenantDB) (name : String) : List HistoryRow :=
  db.history.filter (fun r => r.migration_file == name && r.status == Status.checkpoint)

/-- The `applied_at` of the most recent checkpoint row with the given name
(the SQL `ORDER BY applied_at DESC LIMIT 1` picks a row of maximal
`applied_at`, so that value is the maximum). -/
def latestCheckpointTime (db : TenantDB) (name : String) : Nat :=
  ((checkpointRows db name).map (fun r => r.applied_at)).foldl Nat.max 0

/-- Model of `rollback_to_checkpoint` (lines 166-206): returns `false` untouched if
no checkpoint row with the name exists; otherwise flips `status` to
`rolled_back` on exactly the `applied` rows with `applied_at` strictly
after the most recent such checkpoint, and returns `true`.  Raises when the
tenant is unreachable or the tracking table does not exist. -/
def rollback_to_checkpoint (db : TenantDB) (name : String) :
    Except String (Bool × TenantDB) :=
  if db.unreachable || !db.trackingExists then .error "connection failed"
  else if (checkpointRows db name).isEmpty then .ok (false, db)
  else
    let cp := latestCheckpointTime db name
    .ok (true, { db with
      history := db.history.map (fun r =>
        if cp < r.applied_at && r.status == Status.applied then
          { r with status := Status.rolled_back }
        else r) })

/-- Model of `record_migration_success` (lines 208-228): appends an `applied` row on
a fresh connection; raises when the tenant is unreachable, the tracking
table does not exist, or the INSERT itself fails. -/
def record_migration_success (db : TenantDB) (f : MigrationFile) (hash : String) :
    Except String TenantDB :=
  if db.unreachable || !db.trackingExists || db.recordInsertFails then .error "insert failed"
  else .ok { db with
    history := db.history ++
      [{ migration_file := f.name
         migration_hash := hash
         applied_at := db.clock
         status := Status.applied
         checkpoint_data := none }]
    clock := db.clock + 1 }

/-- Result of one executor call.  The script prints distinct messages for
the three paths but returns `True` for both skipped and applied;
`ExecResult.success` is that boolean. -/
inductive ExecResult where
  | skipped
  | applied
  | failed
deriving DecidableEq, Repr

/-- The boolean the executor actually returns to the orchestrator. -/
def ExecResult.success : ExecResult → Bool
  | .failed => false
  | _ => true

/-- The membership test of lines 245-247: some already-applied record
matches the pair (file name, content hash). -/
def hasAppliedMatch (db : TenantDB) (f : MigrationFile) (hash : String) : Bool :=
  (get_applied_migrations db).any (fun p => p.1 == f.name && p.2.1 == hash)

/-- Model of `run_tenant_migration` (lines 230-283), the Migration Executor:
compute the hash; skip if an applied record matches (name, hash); otherwise
connect (raises if unreachable — caught, returns failure), check for the
`upgrade` attribute, run it inside the transaction, commit on success, then
record the success on a separate connection.  Any exception inside the
`try` block is caught and turned into a failure return; an exception raised
by `record_migration_success` is caught the same way, after the schema
change has already been committed. -/
def run_tenant_migration (hashFn : String → String) (db : TenantDB)
    (f : MigrationFile) : ExecResult × TenantDB :=
  let migration_hash := get_migration_hash hashFn f
  if hasAppliedMatch db f migration_hash then (.skipped, db)
  else if db.unreachable then (.failed, db)
  else
    match f.upgrade with
    | none => (.failed, db)
    | some up =>
      match up db.tables with
      | .error _ => (.failed, db)
      | .ok newTables =>
        let committed := { db with tables := newTables }
        match record_migration_success committed f migration_hash with
        | .error _ => (.failed, committed)
        | .ok db2 => (.applied, db2)

/-- The `if x not in l: l.append(x)` idiom of lines 345-346 and 351-352. -/
def appendIfAbsent (l : List String) (t : String) : List String :=
  if t ∈ l then l else l ++ [t]

/-- Pointwise update of the tenant-indexed database map. -/
def updateDbs (dbs : String → TenantDB) (t : String) (db : TenantDB) :
    String → TenantDB :=
  fun u => if u = t then db else dbs u

/-- In-memory state of one orchestrator run: the fleet of tenant databases,
the two result lists of lines 321-322 (`skipped_dbs` of line 323 is never
appended to and is omitted), and `trace`, a ghost observation listing each
(migration file name, tenant) pair whose `try` block of lines 337-353 was
entered, in execution order. -/
structure RunState where
  dbs : String → TenantDB
  successful_dbs : List String
  failed_dbs : List String
  trace : List (String × String)

/-- The body of the inner loop of lines 332-363 for one tenant: skip
tenants already failed; otherwise write a checkpoint, invoke the executor,
and on failure roll back to the checkpoint and mark the tenant failed.
An exception from `create_checkpoint` lands in the handler of lines
354-363, which attempts a best-effort rollback (swallowing its own
exception) and marks the tenant failed; an exception from the rollback call
of line 350 lands in the same handler with the same net effect. -/
def stepTenant (hashFn : String → String) (checkpoint_name : String)
    (f : MigrationFile) (s : RunState) (tenant_db : String) : RunState :=
  if tenant_db ∈ s.failed_dbs then s
  else
    let db := s.dbs tenant_db
    match create_checkpoint db checkpoint_name with
    | .error _ =>
        let db1 := match rollback_to_checkpoint db checkpoint_name with
          | .ok p => p.2
          | .error _ => db
        { dbs := updateDbs s.dbs tenant_db db1
          successful_dbs := s.successful_dbs
          failed_dbs := appendIfAbsent s.failed_dbs tenant_db
          trace := s.trace ++ [(f.name, tenant_db)] }
    | .ok dbcp =>
        let r := run_tenant_migration hashFn dbcp f
        if r.1.success then
          { dbs := updateDbs s.dbs tenant_db r.2
            successful_dbs := appendIfAbsent s.successful_dbs tenant_db
            failed_dbs := s.failed_dbs
            trace := s.trace ++ [(f.name, tenant_db)] }
        else
          let db3 := match rollback_to_checkpoint r.2 checkpoint_name with
            | .ok p => p.2
            | .error _ => r.2
          { dbs := updateDbs s.dbs tenant_db db3
            successful_dbs := s.successful_dbs
            failed_dbs := appendIfAbsent s.failed_dbs tenant_db
            trace := s.trace ++ [(f.name, tenant_db)] }

/-- One iteration of the outer loop (lines 329-363): run one migration
file over every tenant in registry order. -/
def stepFile (hashFn : String → String) (checkpoint_name : String)
    (tenant_dbs : List String) (s : RunState) (f : MigrationFile) : RunState :=
  tenant_dbs.foldl (stepTenant hashFn checkpoint_name f) s

/-- The two nested loops of lines 329-363. -/
def runMigrationLoop (hashFn : String → String) (checkpoint_name : String)
    (migration_files : List MigrationFile) (tenant_dbs : List String)
    (s : RunState) : RunState :=
  migration_files.foldl (stepFile hashFn checkpoint_name tenant_dbs) s

/-- The tracking-initialisation loop of lines 312-318: create the tracking
table on every tenant, logging a warning and continuing when it fails. -/
def initTracking (dbs : String → TenantDB) (tenant_dbs : List String) :
    String → TenantDB :=
  tenant_dbs.foldl (fun acc t =>
    match create_migration_tracking_table (acc t) with
    | .ok db => updateDbs acc t db
    | .error _ => acc) dbs

/-- Model of `get_tenant_databases` (lines 34-51): `SELECT db_name FROM companies
ORDER BY db_name` against the auth registry, modelled on the raw bag of
rows. -/
def get_tenant_databases (rows : List String) : List String :=
  List.insertionSort (fun a b => strLe a b = true) rows

/-- Model of `get_tenant_migration_files` (lines 53-68): empty when the directory is
absent; otherwise the `*.py` glob results minus `__init__.py`, sorted
ascending by filename. -/
def get_tenant_migration_files (dirExists : Bool) (globbed : List MigrationFile) :
    List MigrationFile :=
  if dirExists then
    List.insertionSort (fun a b => strLe a.name b.name = true)
      (globbed.filter (fun f => f.name ≠ "__init__.py"))
  else []

/-- Inputs of one run: whether DB_USERNAME and DB_PASSWORD are configured,
the registry reply (`none` models an unreachable auth database, whose
exception is caught by the handler of lines 388-390), the migration
directory and its glob results, the initial fleet, and the
`datetime.now().strftime` stamp taken at line 326. -/
structure RunConfig where
  credsOk : Bool
  registry : Option (List String)
  migrationsDirExists : Bool
  globbedFiles : List MigrationFile
  dbs : String → TenantDB
  runTimestamp : String

/-- What a run returns and leaves behind. -/
structure RunOutcome where
  success : Bool
  finalState : RunState
  checkpoint_name : String

/-- A run state with empty result lists and trace. -/
def initialRunState (dbs : String → TenantDB) : RunState :=
  { dbs := dbs, successful_dbs := [], failed_dbs := [], trace := [] }

/-- Model of `run_all_tenant_migrations` (lines 285-390), the Orchestrator:
credential check, registry query (unreachable registry raises and is
caught at line 388, returning failure), trivial success on an empty tenant
list or an empty migration catalog, tracking initialisation, a single
checkpoint name chosen for the whole run at line 326, the two nested
loops, and finally success iff no tenant is in the failed list. -/
def run_all_tenant_migrations (hashFn : String → String) (cfg : RunConfig) :
    RunOutcome :=
  if !cfg.credsOk then
    { success := false, finalState := initialRunState cfg.dbs, checkpoint_name := "" }
  else
    match cfg.registry with
    | none =>
        { success := false, finalState := initialRunState cfg.dbs, checkpoint_name := "" }
    | some rows =>
        let tenant_dbs := get_tenant_databases rows
        if tenant_dbs.isEmpty then
          { success := true, finalState := initialRunState cfg.dbs, checkpoint_name := "" }
        else
          let migration_files :=
            get_tenant_migration_files cfg.migrationsDirExists cfg.globbedFiles
          if migration_files.isEmpty then
            { success := true, finalState := initialRunState cfg.dbs, checkpoint_name := "" }
          else
            let dbs1 := initTracking cfg.dbs tenant_dbs
            let checkpoint_name := "pre_migration_" ++ cfg.runTimestamp
            let final := runMigrationLoop hashFn checkpoint_name migration_files
              tenant_dbs (initialRunState dbs1)
            { success := final.failed_dbs.isEmpty
              finalState := final
              checkpoint_name := checkpoint_name }

/-- Model of `main` (lines 417-447) in its default mode:
`sys.exit(0 if success else 1)`. -/
def main_exit_code (hashFn : String → String) (cfg : RunConfig) : Nat :=
  if (run_all_tenant_migrations hashFn cfg).success then 0 else 1

/-- Number of `applied` rows matching a (name, hash) pair. -/
def countAppliedMatching (name hash : String) (h : List HistoryRow) : Nat :=
  (h.filter (fun r =>
    r.migration_file == name && r.migration_hash == hash && r.status == Status.applied)).length

/-- Number of `checkpoint` rows carrying a given name. -/
def countCheckpointRows (name : String) (h : List HistoryRow) : Nat :=
  (h.filter (fun r => r.migration_file == name && r.status == Status.checkpoint)).length

/-! ### Order-theoretic facts about the lexicographic comparison -/

theorem charListLe_total : ∀ a b, charListLe a b = true ∨ charListLe b a = true := by
  intro a
  induction a with
  | nil => intro b; left; rfl
  | cons x xs ih =>
    intro b
    cases b with
    | nil => right; rfl
    | cons y ys =>
      by_cases hxy : x = y
      · subst hxy
        rcases ih ys with h | h
        · left; simp [charListLe, h]
        · right; simp [charListLe, h]
      · rcases lt_or_gt_of_ne hxy with h | h
        · left; simp [charListLe, hxy, h]
        · right; simp [charListLe, Ne.symm hxy, h]

theorem charListLe_trans :
    ∀ a b c, charListLe a b = true → charListLe b c = true → charListLe a c = true := by
  intro a
  induction a with
  | nil => intro b c _ _; rfl
  | cons x xs ih =>
    intro b c hab hbc
    cases b with
    | nil => simp [charListLe] at hab
    | cons y ys =>
      cases c with
      | nil => simp [charListLe] at hbc
      | cons z zs =>
        by_cases hxy : x = y
        · subst hxy
          simp only [charListLe, if_pos rfl] at hab
          by_cases hyz : x = z
          · subst hyz
            simp only [charListLe, if_pos rfl] at hbc ⊢
            exact ih ys zs hab hbc
          · simp only [charListLe, if_neg hyz] at hbc ⊢
            exact hbc
        · simp only [charListLe, if_neg hxy, decide_eq_true_eq] at hab
          by_cases hyz : y = z
          · subst hyz
            simp [charListLe, hxy, hab]
          · simp only [charListLe, if_neg hyz, decide_eq_true_eq] at hbc
            have hxz : x < z := lt_trans hab hbc
            simp [charListLe, ne_of_lt hxz, hxz]

instance : IsTotal String (fun a b => strLe a b = true) :=
  ⟨fun a b => charListLe_total a.data b.data⟩

instance : IsTrans String (fun a b => strLe a b = true) :=
  ⟨fun a b c => charListLe_trans a.data b.data c.data⟩

instance : IsTotal MigrationFile (fun a b => strLe a.name b.name = true) :=
  ⟨fun a b => charListLe_total a.name.data b.name.data⟩

instance : IsTrans MigrationFile (fun a b => strLe a.name b.name = true) :=
  ⟨fun a b c => charListLe_trans a.name.data b.name.data c.name.data⟩

/-! ### Generic fold-invariant machinery -/

theorem foldl_preserves {α σ : Type _} (P : σ → Prop) (step : σ → α → σ)
    (h : ∀ s a, P s → P (step s a)) :
    ∀ (l : List α) (s : σ), P s → P (l.foldl step s) := by
  intro l
  induction l with
  | nil => intro s hs; exact hs
  | cons a l ih => intro s hs; exact ih (step s a) (h s a hs)

/-- The maximum computed by `latestCheckpointTime`: the fold result bounds
the accumulator and every element, and equals the accumulator or some
element. -/
theorem foldl_nat_max_spec (l : List Nat) (a : Nat) :
    (∀ x ∈ l, x ≤ l.foldl Nat.max a) ∧ a ≤ l.foldl Nat.max a ∧
      (l.foldl Nat.max a = a ∨ l.foldl Nat.max a ∈ l) := by
  induction l generalizing a with
  | nil => simp
  | cons b l ih =>
    obtain ⟨h1, h2, h3⟩ := ih (Nat.max a b)
    have hle : Nat.max a b ≤ List.foldl Nat.max a (b :: l) := by
      rw [List.foldl_cons]; exact h2
    refine ⟨?_, ?_, ?_⟩
    · intro x hx
      rcases List.mem_cons.mp hx with hx | hx
      · subst hx
        exact le_trans (Nat.le_max_right a x) hle
      · rw [List.foldl_cons]; exact h1 x hx
    · exact le_trans (Nat.le_max_left a b) hle
    · rw [List.foldl_cons]
      rcases h3 with h | h
      · by_cases hab : a ≤ b
        · right
          rw [h, (by simp [Nat.max_def, hab] : Nat.max a b = b)]
          exact List.mem_cons_self b l
        · left
          rw [h]
          simp [Nat.max_def, hab]
      · right; exact List.mem_cons_of_mem _ h

/-! ### Executor characterisation -/

/-- The membership test of lines 245-247 in record vocabulary: it holds
exactly when the tracking store is readable and some `applied` row carries
the pair (file name, hash). -/
theorem hasAppliedMatch_iff (db : TenantDB) (f : MigrationFile) (hash : String) :
    hasAppliedMatch db f hash = true ↔
      db.unreachable = false ∧ db.trackingExists = true ∧
        ∃ r ∈ db.history, r.migration_file = f.name ∧ r.migration_hash = hash ∧
          r.status = Status.applied := by
  unfold hasAppliedMatch get_applied_migrations
  by_cases hu : db.unreachable <;> by_cases ht : db.trackingExists <;>
    simp [hu, ht, List.any_eq_true, List.mem_map, List.mem_insertionSort,
      List.mem_filter, beq_iff_eq]
  constructor
  · rintro ⟨r, ⟨hr, hs⟩, hn, hh⟩
    exact ⟨r, hr, hn, hh, hs⟩
  · rintro ⟨r, hr, hn, hh, hs⟩
    exact ⟨r, ⟨hr, hs⟩, hn, hh⟩

/-- Skip path of the executor (lines 244-248): a matching applied record
short-circuits the call with no state change. -/
theorem run_tenant_migration_skip (hashFn : String → String) (db : TenantDB)
    (f : MigrationFile)
    (h : hasAppliedMatch db f (get_migration_hash hashFn f) = true) :
    run_tenant_migration hashFn db f = (ExecResult.skipped, db) := by
  unfold run_tenant_migration
  simp [h]

/-- Without a matching applied record the executor never reports a skip. -/
theorem run_tenant_migration_not_skipped (hashFn : String → String) (db : TenantDB)
    (f : MigrationFile)
    (h : hasAppliedMatch db f (get_migration_hash hashFn f) = false) :
    (run_tenant_migration hashFn db f).1 ≠ ExecResult.skipped := by
  unfold run_tenant_migration
  simp only [h, Bool.false_eq_true, if_false]
  split
  · simp
  · split
    · simp
    · split
      · simp
      · split <;> simp

/-- Failure paths of the executor leave the tracking store, the clock and
every failure switch unchanged; the schema is either unchanged or exactly
the committed result of the upgrade. -/
theorem run_tenant_migration_failed_inv (hashFn : String → String) (db : TenantDB)
    (f : MigrationFile) (db2 : TenantDB)
    (h : run_tenant_migration hashFn db f = (ExecResult.failed, db2)) :
    db2.history = db.history ∧ db2.clock = db.clock ∧
    db2.trackingExists = db.trackingExists ∧ db2.unreachable = db.unreachable ∧
    db2.recordInsertFails = db.recordInsertFails ∧
    (db2.tables = db.tables ∨
      ∃ up, f.upgrade = some up ∧ up db.tables = Except.ok db2.tables) ∧
    (db.trackingExists = true → db.recordInsertFails = false → db2 = db) := by
  by_cases hm : hasAppliedMatch db f (get_migration_hash hashFn f) = true
  · rw [run_tenant_migration_skip hashFn db f hm] at h
    simp at h
  · have hm2 : hasAppliedMatch db f (get_migration_hash hashFn f) = false := by
      simpa using hm
    simp only [run_tenant_migration, hm2, Bool.false_eq_true, if_false] at h
    split at h
    · injection h with h1 h2
      subst h2
      simp
    · rename_i hu
      split at h
      · injection h with h1 h2
        subst h2
        simp
      · rename_i up hup
        split at h
        · injection h with h1 h2
          subst h2
          simp
        · rename_i newTables hok
          split at h
          · rename_i e2 hrec
            injection h with h1 h2
            subst h2
            refine ⟨rfl, rfl, rfl, rfl, rfl, Or.inr ⟨up, hup, hok⟩, ?_⟩
            intro htr hrf
            exfalso
            have hu2 : db.unreachable = false := by simpa using hu
            simp [record_migration_success, hu2, htr, hrf] at hrec
          · simp at h

/-- Success path of the executor: exact characterisation of the resulting
state and of the preconditions that must have held. -/
theorem run_tenant_migration_applied_char (hashFn : String → String) (db : TenantDB)
    (f : MigrationFile) (db2 : TenantDB)
    (h : run_tenant_migration hashFn db f = (ExecResult.applied, db2)) :
    db.unreachable = false ∧ db.trackingExists = true ∧ db.recordInsertFails = false ∧
    hasAppliedMatch db f (get_migration_hash hashFn f) = false ∧
    ∃ up newTables, f.upgrade = some up ∧ up db.tables = Except.ok newTables ∧
      db2 = { db with
        tables := newTables
        history := db.history ++
          [{ migration_file := f.name
             migration_hash := get_migration_hash hashFn f
             applied_at := db.clock
             status := Status.applied
             checkpoint_data := none }]
        clock := db.clock + 1 } := by
  by_cases hm : hasAppliedMatch db f (get_migration_hash hashFn f) = true
  · rw [run_tenant_migration_skip hashFn db f hm] at h
    simp at h
  · have hm2 : hasAppliedMatch db f (get_migration_hash hashFn f) = false := by
      simpa using hm
    simp only [run_tenant_migration, hm2, Bool.false_eq_true, if_false] at h
    split at h
    · simp at h
    · rename_i hu
      split at h
      · simp at h
      · rename_i up hup
        split at h
        · simp at h
        · rename_i newTables hok
          split at h
          · simp at h
          · rename_i dbr hrec
            injection h with h1 h2
            subst h2
            unfold record_migration_success at hrec
            split at hrec
            · exact absurd hrec (by simp)
            · rename_i hguard
              simp only [Bool.or_eq_true, not_or, Bool.not_eq_true] at hguard
              obtain ⟨⟨hu2, ht2⟩, hrf2⟩ := hguard
              injection hrec with hrec
              refine ⟨by simpa using hu, by simpa using ht2, hrf2, hm2,
                up, newTables, hup, hok, ?_⟩
              rw [← hrec]

/-! ### Orchestrator-step characterisation -/

theorem mem_appendIfAbsent (l : List String) (t u : String) :
    u ∈ appendIfAbsent l t ↔ u ∈ l ∨ u = t := by
  unfold appendIfAbsent
  split
  · rename_i ht
    constructor
    · exact Or.inl
    · rintro (h | rfl)
      · exact h
      · exact ht
  · simp

theorem appendIfAbsent_nodup (l : List String) (t : String) (h : l.Nodup) :
    (appendIfAbsent l t).Nodup := by
  unfold appendIfAbsent
  split
  · exact h
  · rename_i ht
    rw [List.nodup_append]
    exact ⟨h, List.nodup_singleton t,
      fun a ha hat => ht ((List.mem_singleton.mp hat) ▸ ha)⟩

/-- A tenant already failed is skipped untouched (lines 333-335). -/
theorem stepTenant_skip (hashFn : String → String) (cpn : String) (f : MigrationFile)
    (s : RunState) (x : String) (hx : x ∈ s.failed_dbs) :
    stepTenant hashFn cpn f s x = s := by
  simp [stepTenant, hx]

/-- Shape of one processed inner-loop iteration: exactly one tenant
database is updated, the trace gains exactly the processed pair, and
either the tenant joins the successful list (`ok = true`) or the failed
list (`ok = false`). -/
theorem stepTenant_char (hashFn : String → String) (cpn : String) (f : MigrationFile)
    (s : RunState) (x : String) :
    (x ∈ s.failed_dbs ∧ stepTenant hashFn cpn f s x = s) ∨
    (x ∉ s.failed_dbs ∧ ∃ (db2 : TenantDB) (ok : Bool),
      stepTenant hashFn cpn f s x =
        { dbs := updateDbs s.dbs x db2
          successful_dbs := if ok then appendIfAbsent s.successful_dbs x
            else s.successful_dbs
          failed_dbs := if ok then s.failed_dbs else appendIfAbsent s.failed_dbs x
          trace := s.trace ++ [(f.name, x)] }) := by
  by_cases hx : x ∈ s.failed_dbs
  · exact Or.inl ⟨hx, stepTenant_skip hashFn cpn f s x hx⟩
  · refine Or.inr ⟨hx, ?_⟩
    simp only [stepTenant, if_neg hx]
    cases hcp : create_checkpoint (s.dbs x) cpn with
    | error e =>
      cases hrb : rollback_to_checkpoint (s.dbs x) cpn with
      | error e2 => exact ⟨s.dbs x, false, by simp [hrb]⟩
      | ok p => exact ⟨p.2, false, by simp [hrb]⟩
    | ok dbcp =>
      by_cases hs : (run_tenant_migration hashFn dbcp f).1.success = true
      · exact ⟨(run_tenant_migration hashFn dbcp f).2, true, by simp [hs]⟩
      · cases hrb : rollback_to_checkpoint (run_tenant_migration hashFn dbcp f).2 cpn with
        | error e2 =>
          exact ⟨(run_tenant_migration hashFn dbcp f).2, false, by simp [hs, hrb]⟩
        | ok p => exact ⟨p.2, false, by simp [hs, hrb]⟩

theorem stepTenant_failed_mono (hashFn : String → String) (cpn : String)
    (f : MigrationFile) (s : RunState) (x u : String) (hu : u ∈ s.failed_dbs) :
    u ∈ (stepTenant hashFn cpn f s x).failed_dbs := by
  rcases stepTenant_char hashFn cpn f s x with ⟨_, heq⟩ | ⟨hx, db2, ok, heq⟩ <;>
    rw [heq]
  · exact hu
  · cases ok
    · simp only [if_false]
      exact (mem_appendIfAbsent _ _ _).mpr (Or.inl hu)
    · simpa using hu

theorem stepTenant_failed_sub (hashFn : String → String) (cpn : String)
    (f : MigrationFile) (s : RunState) (x u : String)
    (hu : u ∈ (stepTenant hashFn cpn f s x).failed_dbs) :
    u ∈ s.failed_dbs ∨ u = x := by
  rcases stepTenant_char hashFn cpn f s x with ⟨_, heq⟩ | ⟨hx, db2, ok, heq⟩ <;>
    rw [heq] at hu
  · exact Or.inl hu
  · cases ok
    · simp only [if_false] at hu
      exact (mem_appendIfAbsent _ _ _).mp hu
    · exact Or.inl (by simpa using hu)

theorem stepTenant_succ_mono (hashFn : String → String) (cpn : String)
    (f : MigrationFile) (s : RunState) (x u : String) (hu : u ∈ s.successful_dbs) :
    u ∈ (stepTenant hashFn cpn f s x).successful_dbs := by
  rcases stepTenant_char hashFn cpn f s x with ⟨_, heq⟩ | ⟨hx, db2, ok, heq⟩ <;>
    rw [heq]
  · exact hu
  · cases ok
    · simpa using hu
    · simp only [if_true]
      exact (mem_appendIfAbsent _ _ _).mpr (Or.inl hu)

theorem stepTenant_succ_sub (hashFn : String → String) (cpn : String)
    (f : MigrationFile) (s : RunState) (x u : String)
    (hu : u ∈ (stepTenant hashFn cpn f s x).successful_dbs) :
    u ∈ s.successful_dbs ∨ u = x := by
  rcases stepTenant_char hashFn cpn f s x with ⟨_, heq⟩ | ⟨hx, db2, ok, heq⟩ <;>
    rw [heq] at hu
  · exact Or.inl hu
  · cases ok
    · exact Or.inl (by simpa using hu)
    · simp only [if_true] at hu
      exact (mem_appendIfAbsent _ _ _).mp hu

theorem stepTenant_dbs_ne (hashFn : String → String) (cpn : String)
    (f : MigrationFile) (s : RunState) (x t : String) (hne : t ≠ x) :
    (stepTenant hashFn cpn f s x).dbs t = s.dbs t := by
  rcases stepTenant_char hashFn cpn f s x with ⟨_, heq⟩ | ⟨hx, db2, ok, heq⟩ <;>
    rw [heq]
  simp [updateDbs, hne]

theorem stepTenant_trace_mono (hashFn : String → String) (cpn : String)
    (f : MigrationFile) (s : RunState) (x : String) (p : String × String)
    (hp : p ∈ s.trace) : p ∈ (stepTenant hashFn cpn f s x).trace := by
  rcases stepTenant_char hashFn cpn f s x with ⟨_, heq⟩ | ⟨hx, db2, ok, heq⟩ <;>
    rw [heq]
  · exact hp
  · exact List.mem_append_left _ hp

theorem stepTenant_trace_sub (hashFn : String → String) (cpn : String)
    (f : MigrationFile) (s : RunState) (x : String) (p : String × String)
    (hp : p ∈ (stepTenant hashFn cpn f s x).trace) :
    p ∈ s.trace ∨ p = (f.name, x) := by
  rcases stepTenant_char hashFn cpn f s x with ⟨_, heq⟩ | ⟨hx, db2, ok, heq⟩ <;>
    rw [heq] at hp
  · exact Or.inl hp
  · simpa using List.mem_append.mp hp

/-! ### Fold-level monotonicity -/

theorem stepFile_failed_mono (hashFn : String → String) (cpn : String)
    (tenants : List String) (s : RunState) (f : MigrationFile) (u : String)
    (hu : u ∈ s.failed_dbs) : u ∈ (stepFile hashFn cpn tenants s f).failed_dbs :=
  foldl_preserves (fun s2 => u ∈ s2.failed_dbs) (stepTenant hashFn cpn f)
    (fun s2 x h => stepTenant_failed_mono hashFn cpn f s2 x u h) tenants s hu

theorem loop_failed_mono (hashFn : String → String) (cpn : String)
    (files : List MigrationFile) (tenants : List String) (s : RunState) (u : String)
    (hu : u ∈ s.failed_dbs) :
    u ∈ (runMigrationLoop hashFn cpn files tenants s).failed_dbs :=
  foldl_preserves (fun s2 => u ∈ s2.failed_dbs) (stepFile hashFn cpn tenants)
    (fun s2 f h => stepFile_failed_mono hashFn cpn tenants s2 f u h) files s hu

theorem stepFile_trace_mono (hashFn : String → String) (cpn : String)
    (tenants : List String) (s : RunState) (f : MigrationFile) (p : String × String)
    (hp : p ∈ s.trace) : p ∈ (stepFile hashFn cpn tenants s f).trace :=
  foldl_preserves (fun s2 => p ∈ s2.trace) (stepTenant hashFn cpn f)
    (fun s2 x h => stepTenant_trace_mono hashFn cpn f s2 x p h) tenants s hp

theorem loop_trace_mono (hashFn : String → String) (cpn : String)
    (files : List MigrationFile) (tenants : List String) (s : RunState)
    (p : String × String) (hp : p ∈ s.trace) :
    p ∈ (runMigrationLoop hashFn cpn files tenants s).trace :=
  foldl_preserves (fun s2 => p ∈ s2.trace) (stepFile hashFn cpn tenants)
    (fun s2 f h => stepFile_trace_mono hashFn cpn tenants s2 f p h) files s hp

/-! ### Operation-level facts -/

theorem updateDbs_self (dbs : String → TenantDB) (t : String) (db : TenantDB) :
    updateDbs dbs t db t = db := by
  simp [updateDbs]

theorem updateDbs_ne (dbs : String → TenantDB) (t u : String) (db : TenantDB)
    (h : u ≠ t) : updateDbs dbs t db u = dbs u := by
  simp [updateDbs, h]

theorem run_tenant_migration_skipped_inv (hashFn : String → String) (db : TenantDB)
    (f : MigrationFile) (db2 : TenantDB)
    (h : run_tenant_migration hashFn db f = (ExecResult.skipped, db2)) :
    db2 = db ∧ hasAppliedMatch db f (get_migration_hash hashFn f) = true := by
  by_cases hm : hasAppliedMatch db f (get_migration_hash hashFn f) = true
  · rw [run_tenant_migration_skip hashFn db f hm] at h
    injection h with h1 h2
    exact ⟨h2.symm, hm⟩
  · exact absurd (congrArg Prod.fst h)
      (run_tenant_migration_not_skipped hashFn db f (by simpa using hm))

/-- Whatever the outcome, the executor preserves reachability and
tracking-table existence, and either leaves the history untouched or
appends exactly one `applied` row. -/
theorem run_tenant_migration_history_inv (hashFn : String → String) (db : TenantDB)
    (f : MigrationFile) :
    (run_tenant_migration hashFn db f).2.unreachable = db.unreachable ∧
    (run_tenant_migration hashFn db f).2.trackingExists = db.trackingExists ∧
    ((run_tenant_migration hashFn db f).2.history = db.history ∨
      ∃ row, row.status = Status.applied ∧
        (run_tenant_migration hashFn db f).2.history = db.history ++ [row]) := by
  rcases hr : run_tenant_migration hashFn db f with ⟨res, db2⟩
  cases res with
  | skipped =>
    obtain ⟨rfl, -⟩ := run_tenant_migration_skipped_inv hashFn db f db2 hr
    exact ⟨rfl, rfl, Or.inl rfl⟩
  | applied =>
    obtain ⟨-, -, -, -, up, newTables, -, -, rfl⟩ :=
      run_tenant_migration_applied_char hashFn db f db2 hr
    exact ⟨rfl, rfl, Or.inr ⟨_, rfl, rfl⟩⟩
  | failed =>
    obtain ⟨h1, -, h3, h4, h5, -, -⟩ := run_tenant_migration_failed_inv hashFn db f db2 hr
    exact ⟨h4, h3, Or.inl h1⟩

/-- A migration module without an `upgrade` attribute always fails, with
no state change (lines 277-279). -/
theorem run_tenant_migration_no_upgrade (hashFn : String → String) (db : TenantDB)
    (f : MigrationFile) (hup : f.upgrade = none)
    (hm : hasAppliedMatch db f (get_migration_hash hashFn f) = false) :
    run_tenant_migration hashFn db f = (ExecResult.failed, db) := by
  unfold run_tenant_migration
  simp only [hm, Bool.false_eq_true, if_false, hup]
  split <;> rfl

theorem create_checkpoint_ok (db : TenantDB) (cpn : String)
    (hu : db.unreachable = false) (ht : db.trackingExists = true) :
    create_checkpoint db cpn = Except.ok { db with
      history := db.history ++
        [{ migration_file := cpn
           migration_hash := "checkpoint"
           applied_at := db.clock
           status := Status.checkpoint
           checkpoint_data := some (checkpointPayload db.clock db.tables cpn) }]
      clock := db.clock + 1 } := by
  simp [create_checkpoint, hu, ht]

theorem rollback_to_checkpoint_none (db : TenantDB) (cpn : String)
    (hu : db.unreachable = false) (ht : db.trackingExists = true)
    (hcp : checkpointRows db cpn = []) :
    rollback_to_checkpoint db cpn = Except.ok (false, db) := by
  simp [rollback_to_checkpoint, hu, ht, hcp]

theorem rollback_to_checkpoint_some (db : TenantDB) (cpn : String)
    (hu : db.unreachable = false) (ht : db.trackingExists = true)
    (hcp : checkpointRows db cpn ≠ []) :
    rollback_to_checkpoint db cpn = Except.ok (true, { db with
      history := db.history.map (fun r =>
        if latestCheckpointTime db cpn < r.applied_at && r.status == Status.applied then
          { r with status := Status.rolled_back }
        else r) }) := by
  simp [rollback_to_checkpoint, hu, ht, List.isEmpty_iff, hcp]

theorem rollback_to_checkpoint_isOk (db : TenantDB) (cpn : String)
    (hu : db.unreachable = false) (ht : db.trackingExists = true) :
    ∃ p, rollback_to_checkpoint db cpn = Except.ok p := by
  by_cases hcp : checkpointRows db cpn = []
  · exact ⟨_, rollback_to_checkpoint_none db cpn hu ht hcp⟩
  · exact ⟨_, rollback_to_checkpoint_some db cpn hu ht hcp⟩

theorem countCheckpointRows_append_one (n : String) (h : List HistoryRow)
    (r : HistoryRow) :
    countCheckpointRows n (h ++ [r]) =
      countCheckpointRows n h +
        (if r.migration_file = n ∧ r.status = Status.checkpoint then 1 else 0) := by
  unfold countCheckpointRows
  rw [List.filter_append, List.length_append]
  congr 1
  by_cases hr : r.migration_file = n ∧ r.status = Status.checkpoint
  · rw [if_pos hr]
    simp [List.filter_cons, hr.1, hr.2]
  · rw [if_neg hr]
    have hpred : ¬((r.migration_file == n && r.status == Status.checkpoint) = true) := by
      simpa [Bool.and_eq_true, beq_iff_eq] using hr
    simp [List.filter_cons, hpred]

theorem countCheckpointRows_map_rollback (n : String) (T : Nat) (h : List HistoryRow) :
    countCheckpointRows n (h.map (fun r =>
      if T < r.applied_at && r.status == Status.applied then
        { r with status := Status.rolled_back }
      else r)) = countCheckpointRows n h := by
  unfold countCheckpointRows
  rw [← List.countP_eq_length_filter, ← List.countP_eq_length_filter, List.countP_map]
  apply List.countP_congr
  intro r hr
  by_cases hcond : (T < r.applied_at && r.status == Status.applied) = true
  · obtain ⟨hlt, has⟩ := (Bool.and_eq_true _ _).mp hcond
    have has2 : r.status = Status.applied := by simpa [beq_iff_eq] using has
    have hlt2 : T < r.applied_at := by simpa using hlt
    simp [Function.comp, hcond, has2, hlt2]
  · simp [Function.comp, hcond]

/-- The result state of a successful rollback call: only row statuses can
change; row counts of `checkpoint` rows are preserved for every name. -/
theorem rollback_to_checkpoint_ok_inv (db : TenantDB) (cpn : String) (b : Bool)
    (db2 : TenantDB) (h : rollback_to_checkpoint db cpn = Except.ok (b, db2)) :
    db2.tables = db.tables ∧ db2.clock = db.clock ∧
    db2.trackingExists = db.trackingExists ∧ db2.unreachable = db.unreachable ∧
    db2.recordInsertFails = db.recordInsertFails ∧
    (∀ n, countCheckpointRows n db2.history = countCheckpointRows n db.history) := by
  unfold rollback_to_checkpoint at h
  split at h
  · simp at h
  · split at h
    · injection h with h1
      injection h1 with h2 h3
      subst h3
      exact ⟨rfl, rfl, rfl, rfl, rfl, fun n => rfl⟩
    · injection h with h1
      injection h1 with h2 h3
      subst h3
      exact ⟨rfl, rfl, rfl, rfl, rfl,
        fun n => countCheckpointRows_map_rollback n (latestCheckpointTime db cpn) db.history⟩

/-- Appending a checkpoint row does not change the outcome of the
applied-record membership test. -/
theorem hasAppliedMatch_checkpoint_append (db : TenantDB) (cpn : String)
    (f : MigrationFile) (hash : String) (dbcp : TenantDB)
    (hcp : create_checkpoint db cpn = Except.ok dbcp) :
    hasAppliedMatch dbcp f hash = hasAppliedMatch db f hash := by
  unfold create_checkpoint at hcp
  split at hcp
  · simp at hcp
  · injection hcp with hcp
    subst hcp
    unfold hasAppliedMatch get_applied_migrations
    have hfilter : List.filter (fun r => r.status == Status.applied)
        (db.history ++
          [{ migration_file := cpn
             migration_hash := "checkpoint"
             applied_at := db.clock
             status := Status.checkpoint
             checkpoint_data := some (checkpointPayload db.clock db.tables cpn) }]) =
        List.filter (fun r => r.status == Status.applied) db.history := by
      rw [List.filter_append]
      simp
    simp only [hfilter]

/-! ### Specialised step facts -/

/-- Processing an unreachable tenant (lines 337-363): the checkpoint INSERT
raises, the best-effort rollback raises too, and the tenant is marked
failed with its database untouched. -/
theorem stepTenant_unreachable_self (hashFn : String → String) (cpn : String)
    (f : MigrationFile) (s : RunState) (t : String)
    (hu : (s.dbs t).unreachable = true) (hnf : t ∉ s.failed_dbs) :
    stepTenant hashFn cpn f s t =
      { dbs := updateDbs s.dbs t (s.dbs t)
        successful_dbs := s.successful_dbs
        failed_dbs := appendIfAbsent s.failed_dbs t
        trace := s.trace ++ [(f.name, t)] } := by
  have hcp : create_checkpoint (s.dbs t) cpn = Except.error "cannot write checkpoint" := by
    simp [create_checkpoint, hu]
  have hrb : rollback_to_checkpoint (s.dbs t) cpn = Except.error "connection failed" := by
    simp [rollback_to_checkpoint, hu]
  simp only [stepTenant, if_neg hnf, hcp, hrb]

theorem initTracking_cons (dbs : String → TenantDB) (x : String) (xs : List String) :
    initTracking dbs (x :: xs) =
      initTracking (match create_migration_tracking_table (dbs x) with
        | .ok db2 => updateDbs dbs x db2
        | .error _ => dbs) xs := rfl

/-- The tracking-initialisation loop leaves an unreachable tenant database
unchanged (the CREATE raises, the warning is logged, the loop continues). -/
theorem initTracking_unreachable (dbs : String → TenantDB) (tenants : List String)
    (t : String) (hu : (dbs t).unreachable = true) :
    initTracking dbs tenants t = dbs t := by
  unfold initTracking
  refine foldl_preserves (fun acc => acc t = dbs t) _ ?_ tenants dbs rfl
  intro acc x hacc
  cases hc : create_migration_tracking_table (acc x) with
  | error e => simpa [hc] using hacc
  | ok db2 =>
    by_cases hx : t = x
    · subst hx
      rw [hacc] at hc
      simp [create_migration_tracking_table, hu] at hc
    · simp only [hc]
      rw [updateDbs_ne _ _ _ _ hx]
      exact hacc

theorem initTracking_keeps (t : String) (target : TenantDB)
    (htar : target.unreachable = false) (htart : target.trackingExists = true) :
    ∀ (l : List String) (acc : String → TenantDB), acc t = target →
      initTracking acc l t = target := by
  intro l
  induction l with
  | nil => intro acc h; exact h
  | cons x xs ih =>
    intro acc hacc
    rw [initTracking_cons]
    cases hc : create_migration_tracking_table (acc x) with
    | error e => exact ih _ hacc
    | ok db2 =>
      by_cases hx : t = x
      · subst hx
        rw [hacc] at hc
        unfold create_migration_tracking_table at hc
        rw [if_neg (by simp [htar])] at hc
        injection hc with hc
        refine ih _ ?_
        show updateDbs acc t db2 t = target
        rw [updateDbs_self, ← hc]
        obtain ⟨ta, tb, tc, td, te, tf⟩ := target
        simp_all
      · refine ih _ ?_
        show updateDbs acc x db2 t = target
        rw [updateDbs_ne _ _ _ _ hx]
        exact hacc

/-- The tracking-initialisation loop (lines 312-318) establishes the
tracking table on every reachable tenant it visits. -/
theorem initTracking_reachable (dbs : String → TenantDB) (t : String)
    (hu : (dbs t).unreachable = false) :
    ∀ (tenants : List String) (acc : String → TenantDB), acc t = dbs t →
      t ∈ tenants →
      initTracking acc tenants t = { dbs t with trackingExists := true } := by
  intro tenants
  induction tenants with
  | nil => intro acc _ hmem; cases hmem
  | cons x xs ih =>
    intro acc hacc hmem
    rw [initTracking_cons]
    by_cases hx : t = x
    · subst hx
      rw [hacc]
      have hc : create_migration_tracking_table (dbs t) =
          Except.ok { dbs t with trackingExists := true } := by
        simp [create_migration_tracking_table, hu]
      rw [hc]
      refine initTracking_keeps t { dbs t with trackingExists := true } (by simpa using hu)
        rfl xs _ ?_
      show updateDbs acc t { dbs t with trackingExists := true } t =
        { dbs t with trackingExists := true }
      rw [updateDbs_self]
    · have ht2 : t ∈ xs := by
        rcases List.mem_cons.mp hmem with h | h
        · exact absurd h hx
        · exact h
      cases hc : create_migration_tracking_table (acc x) with
      | error e =>
        exact ih _ hacc ht2
      | ok db2 =>
        refine ih _ ?_ ht2
        show updateDbs acc x db2 t = dbs t
        rw [updateDbs_ne _ _ _ _ hx]
        exact hacc

/-- Processing one (unit, tenant) attempt on a reachable tenant with a
tracking table: exactly one checkpoint row named with the run checkpoint
name is appended (before the executor runs), no checkpoint row under any
other name appears, the tenant stays reachable with its tracking table,
and the attempt is recorded in the trace. -/
theorem stepTenant_counts (hashFn : String → String) (cpn : String) (f : MigrationFile)
    (s : RunState) (t : String)
    (hnf : t ∉ s.failed_dbs)
    (hu : (s.dbs t).unreachable = false) (ht : (s.dbs t).trackingExists = true) :
    ((stepTenant hashFn cpn f s t).dbs t).unreachable = false ∧
    ((stepTenant hashFn cpn f s t).dbs t).trackingExists = true ∧
    countCheckpointRows cpn ((stepTenant hashFn cpn f s t).dbs t).history
      = countCheckpointRows cpn (s.dbs t).history + 1 ∧
    (∀ n, n ≠ cpn → countCheckpointRows n ((stepTenant hashFn cpn f s t).dbs t).history
      = countCheckpointRows n (s.dbs t).history) ∧
    (stepTenant hashFn cpn f s t).trace = s.trace ++ [(f.name, t)] := by
  obtain ⟨dbcp, hcp, hcpu, hcpt, hcp1, hcpo⟩ :
      ∃ dbcp, create_checkpoint (s.dbs t) cpn = Except.ok dbcp ∧
        dbcp.unreachable = false ∧ dbcp.trackingExists = true ∧
        countCheckpointRows cpn dbcp.history
          = countCheckpointRows cpn (s.dbs t).history + 1 ∧
        ∀ n, n ≠ cpn → countCheckpointRows n dbcp.history
          = countCheckpointRows n (s.dbs t).history := by
    refine ⟨_, create_checkpoint_ok (s.dbs t) cpn hu ht, hu, ht, ?_, ?_⟩
    · rw [countCheckpointRows_append_one]
      simp
    · intro n hn
      rw [countCheckpointRows_append_one]
      simp [Ne.symm hn]
  obtain ⟨hru, hrt, hrh⟩ := run_tenant_migration_history_inv hashFn dbcp f
  have hrun : ∀ n, countCheckpointRows n (run_tenant_migration hashFn dbcp f).2.history
      = countCheckpointRows n dbcp.history := by
    intro n
    rcases hrh with heq | ⟨row, hrow, heq⟩
    · rw [heq]
    · rw [heq, countCheckpointRows_append_one]
      simp [hrow]
  have hru2 : (run_tenant_migration hashFn dbcp f).2.unreachable = false := by
    rw [hru, hcpu]
  have hrt2 : (run_tenant_migration hashFn dbcp f).2.trackingExists = true := by
    rw [hrt, hcpt]
  simp only [stepTenant, if_neg hnf, hcp]
  by_cases hsucc : (run_tenant_migration hashFn dbcp f).1.success = true
  · rw [if_pos hsucc]
    refine ⟨?_, ?_, ?_, ?_, rfl⟩
    · show (updateDbs s.dbs t (run_tenant_migration hashFn dbcp f).2 t).unreachable = false
      rw [updateDbs_self]
      exact hru2
    · show (updateDbs s.dbs t (run_tenant_migration hashFn dbcp f).2 t).trackingExists = true
      rw [updateDbs_self]
      exact hrt2
    · show countCheckpointRows cpn
          (updateDbs s.dbs t (run_tenant_migration hashFn dbcp f).2 t).history
        = countCheckpointRows cpn (s.dbs t).history + 1
      rw [updateDbs_self, hrun, hcp1]
    · intro n hn
      show countCheckpointRows n
          (updateDbs s.dbs t (run_tenant_migration hashFn dbcp f).2 t).history
        = countCheckpointRows n (s.dbs t).history
      rw [updateDbs_self, hrun, hcpo n hn]
  · rw [if_neg hsucc]
    obtain ⟨p, hrb⟩ := rollback_to_checkpoint_isOk
      (run_tenant_migration hashFn dbcp f).2 cpn hru2 hrt2
    obtain ⟨b, db3⟩ := p
    obtain ⟨-, -, hi3, hi4, -, hic⟩ := rollback_to_checkpoint_ok_inv
      (run_tenant_migration hashFn dbcp f).2 cpn b db3 hrb
    simp only [hrb]
    refine ⟨?_, ?_, ?_, ?_, ?_⟩
    · show (updateDbs s.dbs t db3 t).unreachable = false
      rw [updateDbs_self, hi4, hru, hcpu]
    · show (updateDbs s.dbs t db3 t).trackingExists = true
      rw [updateDbs_self, hi3, hrt, hcpt]
    · show countCheckpointRows cpn (updateDbs s.dbs t db3 t).history
        = countCheckpointRows cpn (s.dbs t).history + 1
      rw [updateDbs_self, hic, hrun, hcp1]
    · intro n hn
      show countCheckpointRows n (updateDbs s.dbs t db3 t).history
        = countCheckpointRows n (s.dbs t).history
      rw [updateDbs_self, hic, hrun, hcpo n hn]
    · simp

theorem countAppliedMatching_append_one (name hash : String) (h : List HistoryRow)
    (r : HistoryRow) :
    countAppliedMatching name hash (h ++ [r]) =
      countAppliedMatching name hash h +
        (if r.migration_file = name ∧ r.migration_hash = hash ∧
            r.status = Status.applied then 1 else 0) := by
  unfold countAppliedMatching
  rw [List.filter_append, List.length_append]
  congr 1
  by_cases hr : r.migration_file = name ∧ r.migration_hash = hash ∧
      r.status = Status.applied
  · rw [if_pos hr]
    simp [List.filter_cons, hr.1, hr.2.1, hr.2.2]
  · rw [if_neg hr]
    have hpred : ¬((r.migration_file == name && r.migration_hash == hash &&
        r.status == Status.applied) = true) := by
      simpa [Bool.and_eq_true, beq_iff_eq, and_assoc] using hr
    simp [List.filter_cons, hpred]

theorem countAppliedMatching_eq_zero (db : TenantDB) (f : MigrationFile)
    (hash : String) (hu : db.unreachable = false) (ht : db.trackingExists = true)
    (hm : hasAppliedMatch db f hash = false) :
    countAppliedMatching f.name hash db.history = 0 := by
  unfold countAppliedMatching
  rw [List.length_eq_zero, List.filter_eq_nil_iff]
  intro r hr hpred
  obtain ⟨⟨hn, hh⟩, hs⟩ :
      (r.migration_file = f.name ∧ r.migration_hash = hash) ∧
        r.status = Status.applied := by
    simpa [Bool.and_eq_true, beq_iff_eq] using hpred
  have : hasAppliedMatch db f hash = true :=
    (hasAppliedMatch_iff db f hash).mpr ⟨hu, ht, r, hr, hn, hh, hs⟩
  rw [hm] at this
  cases this

/-! ### Concrete fixtures used by witnesses and counterexamples -/

/-- Stand-in for the SHA-256 hex digest in concrete scenarios (the claims
never rely on properties of the digest beyond determinism). -/
def exHash : String → String := fun c => c

/-- A fresh, reachable tenant database with its tracking table present. -/
def exDb : TenantDB :=
  { tables := [], trackingExists := true, history := [], clock := 0,
    unreachable := false, recordInsertFails := false }

/-- An unreachable tenant database (tracking store unavailable). -/
def exDbUnreachable : TenantDB :=
  { exDb with unreachable := true, trackingExists := false }

/-- A reachable tenant whose success-recording INSERT raises. -/
def exDbRecFail : TenantDB := { exDb with recordInsertFails := true }

/-- A migration unit whose upgrade creates one table. -/
def exF1 : MigrationFile :=
  { name := "0001_a.py", content := "create activity",
    upgrade := some (fun ts => Except.ok (ts ++ ["activity"])) }

/-- A migration unit defining no upgrade entry point. -/
def exF2 : MigrationFile :=
  { name := "0002_b.py", content := "no entry point", upgrade := none }

/-- A tenant history holding a checkpoint between two applied rows, used
to exercise rollback scoping. -/
def exDbRoll : TenantDB :=
  { tables := ["activity"], trackingExists := true,
    history :=
      [ { migration_file := "0001_a.py", migration_hash := "h1", applied_at := 0,
          status := Status.applied, checkpoint_data := none },
        { migration_file := "cpA", migration_hash := "checkpoint", applied_at := 1,
          status := Status.checkpoint, checkpoint_data := some "snap" },
        { migration_file := "0002_b.py", migration_hash := "h2", applied_at := 2,
          status := Status.applied, checkpoint_data := none } ],
    clock := 3, unreachable := false, recordInsertFails := false }

/-- One-tenant run configuration: unit 1 succeeds, unit 2 has no upgrade
entry point and therefore fails. -/
def exCfg : RunConfig :=
  { credsOk := true, registry := some ["t1"], migrationsDirExists := true,
    globbedFiles := [exF1, exF2], dbs := fun _ => exDb,
    runTimestamp := "20260101_000000" }

/-- An orchestrator state at the start of a run over the fixture fleet. -/
def exState : RunState :=
  { dbs := fun _ => exDb, successful_dbs := [], failed_dbs := [], trace := [] }

/-! ### Claim theorems -/

/-- C2: for every tenant state with a reachable tracking store,
`rollback_to_checkpoint` sets `status` to `rolled_back` on exactly those
rows that have status `applied` and `applied_at` strictly after the
`applied_at` of the most recent checkpoint row with the requested name —
characterised here as the maximum `applied_at` over all checkpoint rows of
that name, attained by one of them — and changes no other field of any
row and nothing else of the tenant state; when no checkpoint row with the
name exists it returns `false` with the tenant state unmodified (the
orchestrator then continues the run). -/
theorem c2_rollback_scoping (db : TenantDB) (name : String)
    (hu : db.unreachable = false) (ht : db.trackingExists = true) :
    (checkpointRows db name = [] →
      rollback_to_checkpoint db name = Except.ok (false, db)) ∧
    (checkpointRows db name ≠ [] →
      (∃ r ∈ checkpointRows db name, r.applied_at = latestCheckpointTime db name) ∧
      (∀ r ∈ checkpointRows db name, r.applied_at ≤ latestCheckpointTime db name) ∧
      rollback_to_checkpoint db name = Except.ok (true, { db with
        history := db.history.map (fun r =>
          if r.status = Status.applied ∧
              latestCheckpointTime db name < r.applied_at then
            { r with status := Status.rolled_back }
          else r) })) := by
  refine ⟨fun hcp => rollback_to_checkpoint_none db name hu ht hcp, fun hcp => ?_⟩
  refine ⟨?_, ?_, ?_⟩
  · have hspec := foldl_nat_max_spec
      ((checkpointRows db name).map (fun r => r.applied_at)) 0
    rcases hspec.2.2 with h0 | hmem
    · obtain ⟨r0, hr0⟩ := List.exists_mem_of_ne_nil _ hcp
      refine ⟨r0, hr0, ?_⟩
      have hle := hspec.1 r0.applied_at (List.mem_map_of_mem _ hr0)
      unfold latestCheckpointTime
      rw [h0] at hle
      omega
    · obtain ⟨r0, hr0, hr0eq⟩ := List.mem_map.mp hmem
      exact ⟨r0, hr0, hr0eq⟩
  · intro r hr
    exact (foldl_nat_max_spec _ 0).1 r.applied_at (List.mem_map_of_mem _ hr)
  · have hfun : (fun r : HistoryRow =>
        if latestCheckpointTime db name < r.applied_at &&
            r.status == Status.applied then
          { r with status := Status.rolled_back }
        else r)
      = (fun r : HistoryRow =>
        if r.status = Status.applied ∧
            latestCheckpointTime db name < r.applied_at then
          { r with status := Status.rolled_back }
        else r) := by
      funext r
      by_cases ha : r.status = Status.applied <;>
        by_cases hlt : latestCheckpointTime db name < r.applied_at <;>
        simp [ha, hlt]
    rw [rollback_to_checkpoint_some db name hu ht hcp, hfun]

theorem c2_rollback_scoping_witness :
    (checkpointRows exDbRoll "cpA" = [] →
      rollback_to_checkpoint exDbRoll "cpA" = Except.ok (false, exDbRoll)) ∧
    (checkpointRows exDbRoll "cpA" ≠ [] →
      (∃ r ∈ checkpointRows exDbRoll "cpA",
        r.applied_at = latestCheckpointTime exDbRoll "cpA") ∧
      (∀ r ∈ checkpointRows exDbRoll "cpA",
        r.applied_at ≤ latestCheckpointTime exDbRoll "cpA") ∧
      rollback_to_checkpoint exDbRoll "cpA" = Except.ok (true, { exDbRoll with
        history := exDbRoll.history.map (fun r =>
          if r.status = Status.applied ∧
              latestCheckpointTime exDbRoll "cpA" < r.applied_at then
            { r with status := Status.rolled_back }
          else r) })) :=
  c2_rollback_scoping exDbRoll "cpA" (by decide) (by decide)

/-- C3: the executor skips, with no state change and no new record, iff
an `applied` record matches the pair (unit name, content hash); applying
the same unit with identical content twice leaves exactly one matching
`applied` record, the second call skipping without change; and a unit
whose hash matches no applied record — in particular one whose content
now hashes differently — is executed as a new application rather than
skipped. -/
theorem c3_idempotent_apply (hashFn : String → String) (db : TenantDB)
    (f : MigrationFile) :
    (hasAppliedMatch db f (get_migration_hash hashFn f) = true ↔
      db.unreachable = false ∧ db.trackingExists = true ∧
        ∃ r ∈ db.history, r.migration_file = f.name ∧
          r.migration_hash = get_migration_hash hashFn f ∧
          r.status = Status.applied) ∧
    (hasAppliedMatch db f (get_migration_hash hashFn f) = true →
      run_tenant_migration hashFn db f = (ExecResult.skipped, db)) ∧
    (hasAppliedMatch db f (get_migration_hash hashFn f) = false →
      (run_tenant_migration hashFn db f).1 ≠ ExecResult.skipped) ∧
    (∀ db2, run_tenant_migration hashFn db f = (ExecResult.applied, db2) →
      run_tenant_migration hashFn db2 f = (ExecResult.skipped, db2) ∧
      countAppliedMatching f.name (get_migration_hash hashFn f) db2.history = 1) ∧
    (∀ f2 db2, run_tenant_migration hashFn db f = (ExecResult.applied, db2) →
      get_migration_hash hashFn f2 ≠ get_migration_hash hashFn f →
      hasAppliedMatch db f2 (get_migration_hash hashFn f2) = false →
      (run_tenant_migration hashFn db2 f2).1 ≠ ExecResult.skipped) := by
  refine ⟨hasAppliedMatch_iff db f _,
    run_tenant_migration_skip hashFn db f,
    run_tenant_migration_not_skipped hashFn db f, ?_, ?_⟩
  · intro db2 h
    obtain ⟨hu, ht, hrf, hm, up, newTables, hup, hok, hdb2⟩ :=
      run_tenant_migration_applied_char hashFn db f db2 h
    have hmatch2 : hasAppliedMatch db2 f (get_migration_hash hashFn f) = true := by
      refine (hasAppliedMatch_iff db2 f _).mpr ?_
      subst hdb2
      exact ⟨hu, ht, _, List.mem_append_right _ (List.mem_singleton_self _),
        rfl, rfl, rfl⟩
    refine ⟨run_tenant_migration_skip hashFn db2 f hmatch2, ?_⟩
    have hzero : countAppliedMatching f.name (get_migration_hash hashFn f)
        db.history = 0 := countAppliedMatching_eq_zero db f _ hu ht hm
    subst hdb2
    show countAppliedMatching f.name (get_migration_hash hashFn f)
      (db.history ++ [_]) = 1
    rw [countAppliedMatching_append_one, hzero]
    simp
  · intro f2 db2 h hne hm2
    obtain ⟨hu, ht, hrf, hm, up, newTables, hup, hok, hdb2⟩ :=
      run_tenant_migration_applied_char hashFn db f db2 h
    apply run_tenant_migration_not_skipped
    rw [Bool.eq_false_iff]
    intro hmm
    obtain ⟨hu2, ht2, r, hr, hn, hh, hs⟩ := (hasAppliedMatch_iff db2 f2 _).mp hmm
    subst hdb2
    rcases List.mem_append.mp hr with hold | hnew
    · have : hasAppliedMatch db f2 (get_migration_hash hashFn f2) = true :=
        (hasAppliedMatch_iff db f2 _).mpr ⟨hu, ht, r, hold, hn, hh, hs⟩
      rw [hm2] at this
      cases this
    · rw [List.mem_singleton] at hnew
      subst hnew
      exact hne (by simpa using hh.symm)

theorem c3_idempotent_apply_witness :
    run_tenant_migration exHash (run_tenant_migration exHash exDb exF1).2 exF1
      = (ExecResult.skipped, (run_tenant_migration exHash exDb exF1).2) ∧
    countAppliedMatching exF1.name (get_migration_hash exHash exF1)
      (run_tenant_migration exHash exDb exF1).2.history = 1 :=
  (c3_idempotent_apply exHash exDb exF1).2.2.2.1
    (run_tenant_migration exHash exDb exF1).2 (by decide)

/-- C4, counterexample to the claim as stated: on a reachable tenant whose
success-recording INSERT raises, applying a unit whose upgrade succeeds
commits the schema change (a table appears) and then returns a failure —
so a failure return does not imply the tenant database is unchanged. -/
theorem c4_counterexample :
    (run_tenant_migration exHash exDbRecFail exF1).1 = ExecResult.failed ∧
    (run_tenant_migration exHash exDbRecFail exF1).2.tables ≠ exDbRecFail.tables := by
  decide

/-- C4 (amended): whenever the executor returns a failure, the tracking
store holds no new record for the attempt and the timestamp counter is
untouched, and the schema is either fully unchanged or exactly the
committed result of the upgrade; when the failure is not caused by the
post-commit success-recording INSERT (tracking table present and the
INSERT able to succeed), the tenant database is fully unchanged — the
transaction was not committed. -/
theorem c4_failure_leaves_tracking (hashFn : String → String) (db : TenantDB)
    (f : MigrationFile) (db2 : TenantDB)
    (h : run_tenant_migration hashFn db f = (ExecResult.failed, db2)) :
    db2.history = db.history ∧ db2.clock = db.clock ∧
    (db2.tables = db.tables ∨
      ∃ up, f.upgrade = some up ∧ up db.tables = Except.ok db2.tables) ∧
    (db.trackingExists = true → db.recordInsertFails = false → db2 = db) := by
  obtain ⟨h1, h2, h3, h4, h5, h6, h7⟩ :=
    run_tenant_migration_failed_inv hashFn db f db2 h
  exact ⟨h1, h2, h6, h7⟩

theorem c4_failure_leaves_tracking_witness :
    exDb.history = exDb.history ∧ exDb.clock = exDb.clock ∧
    (exDb.tables = exDb.tables ∨
      ∃ up, exF2.upgrade = some up ∧ up exDb.tables = Except.ok exDb.tables) ∧
    (exDb.trackingExists = true → exDb.recordInsertFails = false → exDb = exDb) :=
  c4_failure_leaves_tracking exHash exDb exF2 exDb (by decide)

/-- Conclusion of claim C10: the executor fails on every tenant for a unit
with no upgrade entry point, and one orchestrator iteration on such a unit
writes the checkpoint, fails, rolls back to the just-written checkpoint
(which is found, so rollback returns `true`), marks the tenant failed, and
leaves the schema untouched. -/
def NoUpgradeStepSpec (hashFn : String → String) (cpn : String) (f : MigrationFile)
    (s : RunState) (t : String) : Prop :=
  (∀ db : TenantDB, hasAppliedMatch db f (get_migration_hash hashFn f) = false →
    run_tenant_migration hashFn db f = (ExecResult.failed, db)) ∧
  ∃ dbcp db3,
    create_checkpoint (s.dbs t) cpn = Except.ok dbcp ∧
    run_tenant_migration hashFn dbcp f = (ExecResult.failed, dbcp) ∧
    rollback_to_checkpoint dbcp cpn = Except.ok (true, db3) ∧
    stepTenant hashFn cpn f s t =
      { dbs := updateDbs s.dbs t db3
        successful_dbs := s.successful_dbs
        failed_dbs := appendIfAbsent s.failed_dbs t
        trace := s.trace ++ [(f.name, t)] } ∧
    db3.tables = (s.dbs t).tables ∧
    t ∈ (stepTenant hashFn cpn f s t).failed_dbs

/-- C10: a discovered migration file defining no upgrade entry point makes
the executor return a failure without any state change for every tenant
(on whose tracking store no record matches the unit — lines 244-248 would
otherwise skip first), so the orchestrator invokes rollback to the run
checkpoint and marks the tenant failed even though no schema change was
executed. -/
theorem c10_no_upgrade_fails (hashFn : String → String) (cpn : String)
    (f : MigrationFile) (s : RunState) (t : String)
    (hup : f.upgrade = none)
    (hnf : t ∉ s.failed_dbs)
    (hu : (s.dbs t).unreachable = false)
    (ht : (s.dbs t).trackingExists = true)
    (hnm : hasAppliedMatch (s.dbs t) f (get_migration_hash hashFn f) = false) :
    NoUpgradeStepSpec hashFn cpn f s t := by
  refine ⟨fun db hm => run_tenant_migration_no_upgrade hashFn db f hup hm, ?_⟩
  obtain ⟨dbcp, hcp, hcpu, hcpt, hcptab, hcpne, hmcp⟩ :
      ∃ dbcp, create_checkpoint (s.dbs t) cpn = Except.ok dbcp ∧
        dbcp.unreachable = false ∧ dbcp.trackingExists = true ∧
        dbcp.tables = (s.dbs t).tables ∧
        checkpointRows dbcp cpn ≠ [] ∧
        hasAppliedMatch dbcp f (get_migration_hash hashFn f) = false := by
    refine ⟨_, create_checkpoint_ok (s.dbs t) cpn hu ht, hu, ht, rfl, ?_, ?_⟩
    · show checkpointRows { s.dbs t with
        history := (s.dbs t).history ++ [_], clock := (s.dbs t).clock + 1 } cpn ≠ []
      unfold checkpointRows
      simp [List.filter_append, List.filter_cons]
    · exact (hasAppliedMatch_checkpoint_append (s.dbs t) cpn f _ _
        (create_checkpoint_ok (s.dbs t) cpn hu ht)).trans hnm
  have hrun : run_tenant_migration hashFn dbcp f = (ExecResult.failed, dbcp) :=
    run_tenant_migration_no_upgrade hashFn dbcp f hup hmcp
  have hrb := rollback_to_checkpoint_some dbcp cpn hcpu hcpt hcpne
  refine ⟨dbcp, _, hcp, hrun, hrb, ?_, ?_, ?_⟩
  · simp only [stepTenant, if_neg hnf, hcp, hrun, ExecResult.success,
      Bool.false_eq_true, if_false, hrb]
  · show ({ dbcp with history := _ } : TenantDB).tables = (s.dbs t).tables
    exact hcptab
  · simp only [stepTenant, if_neg hnf, hcp, hrun, ExecResult.success,
      Bool.false_eq_true, if_false, hrb]
    exact (mem_appendIfAbsent _ _ _).mpr (Or.inr rfl)

theorem c10_no_upgrade_fails_witness :
    NoUpgradeStepSpec exHash "pre_migration_20260101_000000" exF2 exState "t1" :=
  c10_no_upgrade_fails exHash "pre_migration_20260101_000000" exF2 exState "t1"
    rfl (by decide) (by decide) (by decide) (by decide)

/-! ### Run-state invariants for the orchestrator claims -/

theorem stepTenant_nodup (hashFn : String → String) (cpn : String) (f : MigrationFile)
    (s : RunState) (x : String)
    (h : s.successful_dbs.Nodup ∧ s.failed_dbs.Nodup) :
    (stepTenant hashFn cpn f s x).successful_dbs.Nodup ∧
    (stepTenant hashFn cpn f s x).failed_dbs.Nodup := by
  rcases stepTenant_char hashFn cpn f s x with ⟨_, heq⟩ | ⟨hx, db2, ok, heq⟩ <;>
    rw [heq]
  · exact h
  · cases ok
    · simp only [if_false]
      exact ⟨h.1, appendIfAbsent_nodup _ _ h.2⟩
    · simp only [if_true]
      exact ⟨appendIfAbsent_nodup _ _ h.1, h.2⟩

theorem loop_nodup (hashFn : String → String) (cpn : String)
    (files : List MigrationFile) (tenants : List String) (s : RunState)
    (h : s.successful_dbs.Nodup ∧ s.failed_dbs.Nodup) :
    (runMigrationLoop hashFn cpn files tenants s).successful_dbs.Nodup ∧
    (runMigrationLoop hashFn cpn files tenants s).failed_dbs.Nodup :=
  foldl_preserves (fun s2 => s2.successful_dbs.Nodup ∧ s2.failed_dbs.Nodup)
    (stepFile hashFn cpn tenants)
    (fun s2 f hf =>
      foldl_preserves (fun s3 => s3.successful_dbs.Nodup ∧ s3.failed_dbs.Nodup)
        (stepTenant hashFn cpn f)
        (fun s3 x h3 => stepTenant_nodup hashFn cpn f s3 x h3) tenants s2 hf)
    files s h

/-- A tenant already failed stays failed, its database is untouched, and no
trace entry for it is added by the rest of the run. -/
theorem loop_failed_untouched (hashFn : String → String) (cpn : String)
    (files : List MigrationFile) (tenants : List String) (s : RunState) (t : String)
    (hfail : t ∈ s.failed_dbs) :
    t ∈ (runMigrationLoop hashFn cpn files tenants s).failed_dbs ∧
    (runMigrationLoop hashFn cpn files tenants s).dbs t = s.dbs t ∧
    (∀ p ∈ (runMigrationLoop hashFn cpn files tenants s).trace,
      p.2 = t → p ∈ s.trace) := by
  have hstep : ∀ (f : MigrationFile) (s2 : RunState) (x : String),
      (t ∈ s2.failed_dbs ∧ s2.dbs t = s.dbs t ∧
        (∀ p ∈ s2.trace, p.2 = t → p ∈ s.trace)) →
      (t ∈ (stepTenant hashFn cpn f s2 x).failed_dbs ∧
        (stepTenant hashFn cpn f s2 x).dbs t = s.dbs t ∧
        (∀ p ∈ (stepTenant hashFn cpn f s2 x).trace, p.2 = t → p ∈ s.trace)) := by
    intro f s2 x ⟨h1, h2, h3⟩
    by_cases hx : x = t
    · subst hx
      rw [stepTenant_skip hashFn cpn f s2 x h1]
      exact ⟨h1, h2, h3⟩
    · refine ⟨stepTenant_failed_mono hashFn cpn f s2 x t h1, ?_, ?_⟩
      · rw [stepTenant_dbs_ne hashFn cpn f s2 x t (fun h => hx h.symm)]
        exact h2
      · intro p hp hpt
        rcases stepTenant_trace_sub hashFn cpn f s2 x p hp with h | h
        · exact h3 p h hpt
        · subst h
          exact absurd hpt hx
  exact foldl_preserves
    (fun s2 => t ∈ s2.failed_dbs ∧ s2.dbs t = s.dbs t ∧
      (∀ p ∈ s2.trace, p.2 = t → p ∈ s.trace))
    (stepFile hashFn cpn tenants)
    (fun s2 f hf =>
      foldl_preserves _ (stepTenant hashFn cpn f) (hstep f) tenants s2 hf)
    files s ⟨hfail, rfl, fun p hp _ => hp⟩

/-- Within one migration unit, a tenant that does not end the unit in the
failed list was attempted: the unit writes its trace entry. -/
theorem stepFile_attended (hashFn : String → String) (cpn : String)
    (f : MigrationFile) :
    ∀ (tenants : List String) (s : RunState) (t : String), t ∈ tenants →
      t ∉ (stepFile hashFn cpn tenants s f).failed_dbs →
      (f.name, t) ∈ (stepFile hashFn cpn tenants s f).trace := by
  intro tenants
  induction tenants with
  | nil => intro s t h; cases h
  | cons x xs ih =>
    intro s t hmem hnf
    show (f.name, t) ∈
      (xs.foldl (stepTenant hashFn cpn f) (stepTenant hashFn cpn f s x)).trace
    have hnf2 : t ∉ (stepTenant hashFn cpn f s x).failed_dbs := fun hin =>
      hnf (foldl_preserves (fun s2 => t ∈ s2.failed_dbs) _
        (fun s2 y h => stepTenant_failed_mono hashFn cpn f s2 y t h) xs _ hin)
    by_cases hx : t = x
    · subst hx
      have hts : t ∉ s.failed_dbs := fun hin =>
        hnf2 (by rw [stepTenant_skip hashFn cpn f s t hin]; exact hin)
      rcases stepTenant_char hashFn cpn f s t with ⟨hin, _⟩ | ⟨hx2, db2, ok, heq⟩
      · exact absurd hin hts
      · have hmemtr : (f.name, t) ∈ (stepTenant hashFn cpn f s t).trace := by
          rw [heq]
          exact List.mem_append_right _ (List.mem_singleton_self _)
        exact foldl_preserves (fun s2 => (f.name, t) ∈ s2.trace) _
          (fun s2 y h => stepTenant_trace_mono hashFn cpn f s2 y _ h) xs _ hmemtr
    · have ht2 : t ∈ xs := by
        rcases List.mem_cons.mp hmem with h | h
        · exact absurd h hx
        · exact h
      exact ih _ t ht2 hnf

/-- A tenant that never ends in the failed list received every migration
unit: each unit of the run has a trace entry for it. -/
theorem loop_attended (hashFn : String → String) (cpn : String) :
    ∀ (files : List MigrationFile) (tenants : List String) (s : RunState)
      (t : String), t ∈ tenants →
      t ∉ (runMigrationLoop hashFn cpn files tenants s).failed_dbs →
      ∀ f ∈ files, (f.name, t) ∈ (runMigrationLoop hashFn cpn files tenants s).trace := by
  intro files
  induction files with
  | nil => intro tenants s t _ _ f hf; cases hf
  | cons g gs ih =>
    intro tenants s t hmem hnf f hf
    have hred : runMigrationLoop hashFn cpn (g :: gs) tenants s
        = runMigrationLoop hashFn cpn gs tenants (stepFile hashFn cpn tenants s g) :=
      rfl
    rw [hred] at hnf ⊢
    have hnf1 : t ∉ (stepFile hashFn cpn tenants s g).failed_dbs := fun hin =>
      hnf (loop_failed_mono hashFn cpn gs tenants _ t hin)
    rcases List.mem_cons.mp hf with rfl | hf2
    · exact loop_trace_mono hashFn cpn gs tenants _ _
        (stepFile_attended hashFn cpn f tenants s t hmem hnf1)
    · exact ih tenants _ t hmem hnf f hf2

/-- The trace segment added by one unit is an in-order selection of the
tenant list paired with that unit. -/
theorem stepFile_trace_ext (hashFn : String → String) (cpn : String)
    (f : MigrationFile) :
    ∀ (tenants : List String) (s : RunState), ∃ ext,
      (stepFile hashFn cpn tenants s f).trace = s.trace ++ ext ∧
      ext.Sublist (tenants.map (fun u => (f.name, u))) := by
  intro tenants
  induction tenants with
  | nil => intro s; exact ⟨[], by simp [stepFile], List.nil_sublist _⟩
  | cons x xs ih =>
    intro s
    obtain ⟨ext, hext, hsub⟩ := ih (stepTenant hashFn cpn f s x)
    rcases stepTenant_char hashFn cpn f s x with ⟨_, heq⟩ | ⟨hx, db2, ok, heq⟩
    · refine ⟨ext, ?_, hsub.trans (List.sublist_cons_self _ _)⟩
      show (xs.foldl (stepTenant hashFn cpn f) (stepTenant hashFn cpn f s x)).trace
        = s.trace ++ ext
      rw [show (stepTenant hashFn cpn f s x) = s from heq] at hext ⊢
      exact hext
    · refine ⟨(f.name, x) :: ext, ?_, List.Sublist.cons₂ _ hsub⟩
      show (stepFile hashFn cpn xs (stepTenant hashFn cpn f s x) f).trace
        = s.trace ++ ((f.name, x) :: ext)
      rw [hext, heq]
      simp

/-- The full trace added by a run is an in-order selection of the product
of the unit catalog (outer) with the tenant list (inner). -/
theorem loop_trace_ext (hashFn : String → String) (cpn : String)
    (tenants : List String) :
    ∀ (files : List MigrationFile) (s : RunState), ∃ ext,
      (runMigrationLoop hashFn cpn files tenants s).trace = s.trace ++ ext ∧
      ext.Sublist (files.flatMap (fun f => tenants.map (fun u => (f.name, u)))) := by
  intro files
  induction files with
  | nil => intro s; exact ⟨[], by simp [runMigrationLoop], List.nil_sublist _⟩
  | cons g gs ih =>
    intro s
    obtain ⟨e1, he1, hs1⟩ := stepFile_trace_ext hashFn cpn g tenants s
    obtain ⟨e2, he2, hs2⟩ := ih (stepFile hashFn cpn tenants s g)
    refine ⟨e1 ++ e2, ?_, ?_⟩
    · show (runMigrationLoop hashFn cpn gs tenants
        (stepFile hashFn cpn tenants s g)).trace = s.trace ++ (e1 ++ e2)
      rw [he2, he1, List.append_assoc]
    · rw [List.flatMap_cons]
      exact List.Sublist.append hs1 hs2

/-- C1, counterexample to the claim as stated: in the fixture run the
single tenant succeeds on unit 1, then fails on unit 2; it is appended to
the failed list without being removed from the successful list, so it ends
the run in both run-state sets at once. -/
theorem c1_counterexample :
    "t1" ∈ (run_all_tenant_migrations exHash exCfg).finalState.successful_dbs ∧
    "t1" ∈ (run_all_tenant_migrations exHash exCfg).finalState.failed_dbs := by
  decide

/-- C1 (amended): throughout a run, each of the two run-state lists
contains a tenant identifier at most once (lines 345 and 351 guard the
appends), but the lists need not be disjoint: a tenant that succeeds on an
earlier migration unit and then fails on a later one remains in the
successful list after being added to the failed list.  Stated for the
final state of a run over arbitrary inputs; every intermediate state of a
run arises as the final state of a run over truncated inputs, and the
per-step lemma shows each step preserves the property. -/
theorem c1_run_state_sets (hashFn : String → String) (cfg : RunConfig) :
    (run_all_tenant_migrations hashFn cfg).finalState.successful_dbs.Nodup ∧
    (run_all_tenant_migrations hashFn cfg).finalState.failed_dbs.Nodup := by
  cases hcred : cfg.credsOk with
  | false => simp [run_all_tenant_migrations, hcred, initialRunState]
  | true =>
    cases hreg : cfg.registry with
    | none => simp [run_all_tenant_migrations, hcred, hreg, initialRunState]
    | some rows =>
      cases hten : (get_tenant_databases rows).isEmpty with
      | true =>
        simp [run_all_tenant_migrations, hcred, hreg, hten, initialRunState]
      | false =>
        cases hfil : (get_tenant_migration_files cfg.migrationsDirExists
            cfg.globbedFiles).isEmpty with
        | true =>
          simp [run_all_tenant_migrations, hcred, hreg, hten, hfil, initialRunState]
        | false =>
          have hmain := loop_nodup hashFn ("pre_migration_" ++ cfg.runTimestamp)
            (get_tenant_migration_files cfg.migrationsDirExists cfg.globbedFiles)
            (get_tenant_databases rows)
            (initialRunState (initTracking cfg.dbs (get_tenant_databases rows)))
            ⟨List.nodup_nil, List.nodup_nil⟩
          simpa [run_all_tenant_migrations, hcred, hreg, hten, hfil] using hmain

/-- Conclusion of claim C5 about the two nested loops: a tenant already in
the failed list has its database untouched and gains no trace entry for
the remainder of the run; a tenant that does not end the run in the failed
list has a trace entry for every unit of the run (so one failure of one
tenant never aborts the outer loop); and the trace is an in-order
selection of units (outer order) paired with tenants (inner order). -/
def FailedIsolationSpec (hashFn : String → String) (cpn : String)
    (files : List MigrationFile) (tenants : List String) (s : RunState)
    (t : String) : Prop :=
  (t ∈ s.failed_dbs →
    (runMigrationLoop hashFn cpn files tenants s).dbs t = s.dbs t ∧
    (∀ p ∈ (runMigrationLoop hashFn cpn files tenants s).trace,
      p.2 = t → p ∈ s.trace)) ∧
  (t ∈ tenants → t ∉ (runMigrationLoop hashFn cpn files tenants s).failed_dbs →
    ∀ f ∈ files, (f.name, t) ∈ (runMigrationLoop hashFn cpn files tenants s).trace) ∧
  (∃ ext, (runMigrationLoop hashFn cpn files tenants s).trace = s.trace ++ ext ∧
    ext.Sublist (files.flatMap (fun f => tenants.map (fun u => (f.name, u)))))

/-- C5: once a tenant is in the failed set no further unit is attempted on
it — no checkpoint, no apply (its database never changes again) and no
trace entry for it is added — while every tenant not in the failed set
still receives every remaining unit in order, and a failure never aborts
the outer loop. -/
theorem c5_failed_isolation (hashFn : String → String) (cpn : String)
    (files : List MigrationFile) (tenants : List String) (s : RunState)
    (t : String) : FailedIsolationSpec hashFn cpn files tenants s t := by
  refine ⟨fun hf => ?_,
    fun hmem hnf => loop_attended hashFn cpn files tenants s t hmem hnf,
    loop_trace_ext hashFn cpn tenants files s⟩
  obtain ⟨h1, h2, h3⟩ := loop_failed_untouched hashFn cpn files tenants s t hf
  exact ⟨h2, h3⟩

theorem c5_failed_isolation_witness :
    FailedIsolationSpec exHash "pre_migration_20260101_000000" [exF1, exF2]
      ["t1"] exState "t1" :=
  c5_failed_isolation exHash "pre_migration_20260101_000000" [exF1, exF2]
    ["t1"] exState "t1"

/-- One inner-loop step preserves, for an unreachable tenant, that its
database is untouched and that it is absent from the successful list. -/
theorem stepTenant_unreachable_Q (hashFn : String → String) (cpn : String)
    (f : MigrationFile) (s : RunState) (x t : String) (D : TenantDB)
    (hD : D.unreachable = true) (hQ1 : s.dbs t = D) (hQ2 : t ∉ s.successful_dbs) :
    (stepTenant hashFn cpn f s x).dbs t = D ∧
    t ∉ (stepTenant hashFn cpn f s x).successful_dbs := by
  by_cases hx : x = t
  · subst hx
    by_cases hf2 : x ∈ s.failed_dbs
    · rw [stepTenant_skip hashFn cpn f s x hf2]
      exact ⟨hQ1, hQ2⟩
    · rw [stepTenant_unreachable_self hashFn cpn f s x (by rw [hQ1]; exact hD) hf2]
      refine ⟨?_, hQ2⟩
      show updateDbs s.dbs x (s.dbs x) x = D
      rw [updateDbs_self]
      exact hQ1
  · constructor
    · rw [stepTenant_dbs_ne hashFn cpn f s x t (fun h => hx h.symm)]
      exact hQ1
    · intro hin
      rcases stepTenant_succ_sub hashFn cpn f s x t hin with h | h
      · exact hQ2 h
      · exact hx h.symm

/-- Within one unit, an unreachable tenant present in the tenant list ends
the unit in the failed list. -/
theorem stepFile_unreachable_failed (hashFn : String → String) (cpn : String)
    (f : MigrationFile) (t : String) (D : TenantDB) (hD : D.unreachable = true) :
    ∀ (tenants : List String) (s : RunState), s.dbs t = D →
      t ∉ s.successful_dbs → t ∈ tenants →
      t ∈ (stepFile hashFn cpn tenants s f).failed_dbs := by
  intro tenants
  induction tenants with
  | nil => intro s _ _ h; cases h
  | cons x xs ih =>
    intro s hQ1 hQ2 hmem
    show t ∈ (xs.foldl (stepTenant hashFn cpn f) (stepTenant hashFn cpn f s x)).failed_dbs
    by_cases hx : x = t
    · subst hx
      have hstep : x ∈ (stepTenant hashFn cpn f s x).failed_dbs := by
        by_cases hf2 : x ∈ s.failed_dbs
        · rw [stepTenant_skip hashFn cpn f s x hf2]
          exact hf2
        · rw [stepTenant_unreachable_self hashFn cpn f s x (by rw [hQ1]; exact hD) hf2]
          exact (mem_appendIfAbsent _ _ _).mpr (Or.inr rfl)
      exact foldl_preserves (fun s2 => x ∈ s2.failed_dbs) _
        (fun s2 y h => stepTenant_failed_mono hashFn cpn f s2 y x h) xs _ hstep
    · have hmem2 : t ∈ xs := by
        rcases List.mem_cons.mp hmem with h | h
        · exact absurd h.symm hx
        · exact h
      obtain ⟨hQ1a, hQ2a⟩ :=
        stepTenant_unreachable_Q hashFn cpn f s x t D hD hQ1 hQ2
      exact ih _ hQ1a hQ2a hmem2

/-- Over the whole run, an unreachable tenant keeps its database untouched,
never enters the successful list, and — as soon as there is at least one
unit and the tenant is listed — ends the run in the failed list. -/
theorem loop_unreachable (hashFn : String → String) (cpn : String) (t : String)
    (D : TenantDB) (hD : D.unreachable = true) :
    ∀ (files : List MigrationFile) (tenants : List String) (s : RunState),
      s.dbs t = D → t ∉ s.successful_dbs →
      (runMigrationLoop hashFn cpn files tenants s).dbs t = D ∧
      t ∉ (runMigrationLoop hashFn cpn files tenants s).successful_dbs ∧
      (files ≠ [] → t ∈ tenants →
        t ∈ (runMigrationLoop hashFn cpn files tenants s).failed_dbs) := by
  intro files
  induction files with
  | nil =>
    intro tenants s h1 h2
    exact ⟨h1, h2, fun h _ => absurd rfl h⟩
  | cons g gs ih =>
    intro tenants s h1 h2
    have hQ : (stepFile hashFn cpn tenants s g).dbs t = D ∧
        t ∉ (stepFile hashFn cpn tenants s g).successful_dbs :=
      foldl_preserves (fun s2 => s2.dbs t = D ∧ t ∉ s2.successful_dbs)
        (stepTenant hashFn cpn g)
        (fun s2 x h => stepTenant_unreachable_Q hashFn cpn g s2 x t D hD h.1 h.2)
        tenants s ⟨h1, h2⟩
    obtain ⟨ih1, ih2, ih3⟩ := ih tenants _ hQ.1 hQ.2
    refine ⟨ih1, ih2, fun _ hmem => ?_⟩
    exact loop_failed_mono hashFn cpn gs tenants _ t
      (stepFile_unreachable_failed hashFn cpn g t D hD tenants s h1 h2 hmem)

/-- Conclusion of claim C6: the unreachable tenant ends the run marked
failed, its database (schema and tracking table alike) is exactly as it
started — no migration unit was applied to it — and it never entered the
successful list. -/
def TrackingUnavailableSpec (hashFn : String → String) (cfg : RunConfig)
    (t : String) : Prop :=
  t ∈ (run_all_tenant_migrations hashFn cfg).finalState.failed_dbs ∧
  (run_all_tenant_migrations hashFn cfg).finalState.dbs t = cfg.dbs t ∧
  t ∉ (run_all_tenant_migrations hashFn cfg).finalState.successful_dbs

/-- C6: when the tracking store of a tenant is unavailable (the tenant
database cannot be reached, so the tracking table can be neither created
nor read and the checkpoint INSERT raises), a run with at least one
migration unit treats the tenant as an execution failure: it is marked
failed and no migration unit is applied to it. -/
theorem c6_tracking_unavailable (hashFn : String → String) (cfg : RunConfig)
    (t : String) (rows : List String)
    (hc : cfg.credsOk = true) (hr : cfg.registry = some rows)
    (htm : t ∈ get_tenant_databases rows)
    (hu : (cfg.dbs t).unreachable = true)
    (hf : get_tenant_migration_files cfg.migrationsDirExists cfg.globbedFiles ≠ []) :
    TrackingUnavailableSpec hashFn cfg t := by
  have htenne : (get_tenant_databases rows).isEmpty = false := by
    rw [← Bool.not_eq_true, List.isEmpty_iff]
    exact List.ne_nil_of_mem htm
  have hfilne : (get_tenant_migration_files cfg.migrationsDirExists
      cfg.globbedFiles).isEmpty = false := by
    rw [← Bool.not_eq_true, List.isEmpty_iff]
    exact hf
  have hinit : (initTracking cfg.dbs (get_tenant_databases rows)) t = cfg.dbs t :=
    initTracking_unreachable cfg.dbs (get_tenant_databases rows) t hu
  have hloop := loop_unreachable hashFn ("pre_migration_" ++ cfg.runTimestamp) t
    (cfg.dbs t) hu
    (get_tenant_migration_files cfg.migrationsDirExists cfg.globbedFiles)
    (get_tenant_databases rows)
    (initialRunState (initTracking cfg.dbs (get_tenant_databases rows)))
    hinit (by simp [initialRunState])
  obtain ⟨hl1, hl2, hl3⟩ := hloop
  unfold TrackingUnavailableSpec
  simp only [run_all_tenant_migrations, hc, Bool.not_true, Bool.false_eq_true,
    if_false, hr, htenne, hfilne]
  exact ⟨hl3 hf htm, hl1, hl2⟩

/-- A run configuration whose only tenant is unreachable. -/
def exCfgUnreachable : RunConfig :=
  { credsOk := true, registry := some ["t2"], migrationsDirExists := true,
    globbedFiles := [exF1], dbs := fun _ => exDbUnreachable,
    runTimestamp := "20260101_000001" }

theorem c6_tracking_unavailable_witness :
    TrackingUnavailableSpec exHash exCfgUnreachable "t2" :=
  c6_tracking_unavailable exHash exCfgUnreachable "t2" ["t2"] rfl rfl
    (by decide) (by decide) (List.cons_ne_nil exF1 [])

/-- One inner-loop step, seen from a fixed reachable tracked tenant: the
count of run-named checkpoint rows in that tenant grows by exactly the
number of trace entries added for that tenant, and checkpoint rows under
other names are never added. -/
theorem stepTenant_counts_any (hashFn : String → String) (cpn : String)
    (f : MigrationFile) (s : RunState) (x t : String)
    (hu : (s.dbs t).unreachable = false) (ht : (s.dbs t).trackingExists = true) :
    ((stepTenant hashFn cpn f s x).dbs t).unreachable = false ∧
    ((stepTenant hashFn cpn f s x).dbs t).trackingExists = true ∧
    countCheckpointRows cpn ((stepTenant hashFn cpn f s x).dbs t).history
        + (s.trace.filter (fun p => p.2 == t)).length
      = countCheckpointRows cpn (s.dbs t).history
        + ((stepTenant hashFn cpn f s x).trace.filter (fun p => p.2 == t)).length ∧
    (∀ n, n ≠ cpn →
      countCheckpointRows n ((stepTenant hashFn cpn f s x).dbs t).history
        = countCheckpointRows n (s.dbs t).history) := by
  by_cases hx : x = t
  · subst hx
    by_cases hf2 : x ∈ s.failed_dbs
    · rw [stepTenant_skip hashFn cpn f s x hf2]
      exact ⟨hu, ht, rfl, fun n _ => rfl⟩
    · obtain ⟨a1, a2, a3, a4, a5⟩ := stepTenant_counts hashFn cpn f s x hf2 hu ht
      refine ⟨a1, a2, ?_, a4⟩
      rw [a3, a5, List.filter_append]
      simp
      omega
  · rcases stepTenant_char hashFn cpn f s x with ⟨_, heq⟩ | ⟨hx2, db2, ok, heq⟩ <;>
      rw [heq]
    · exact ⟨hu, ht, rfl, fun n _ => rfl⟩
    · have hdbs : updateDbs s.dbs x db2 t = s.dbs t :=
        updateDbs_ne s.dbs x t db2 (fun h => hx h.symm)
      refine ⟨?_, ?_, ?_, ?_⟩
      · show (updateDbs s.dbs x db2 t).unreachable = false
        rw [hdbs]; exact hu
      · show (updateDbs s.dbs x db2 t).trackingExists = true
        rw [hdbs]; exact ht
      · show countCheckpointRows cpn (updateDbs s.dbs x db2 t).history
            + (s.trace.filter (fun p => p.2 == t)).length
          = countCheckpointRows cpn (s.dbs t).history
            + ((s.trace ++ [(f.name, x)]).filter (fun p => p.2 == t)).length
        rw [hdbs, List.filter_append]
        simp [hx]
      · intro n hn
        show countCheckpointRows n (updateDbs s.dbs x db2 t).history
          = countCheckpointRows n (s.dbs t).history
        rw [hdbs]

/-- Over the whole run, for a reachable tenant with a tracking table: the
number of new run-named checkpoint rows equals the number of attempts on
the tenant, and no checkpoint row under any other name appears. -/
theorem loop_counts (hashFn : String → String) (cpn : String) (t : String)
    (files : List MigrationFile) (tenants : List String) (s : RunState)
    (hu : (s.dbs t).unreachable = false) (ht : (s.dbs t).trackingExists = true) :
    ((runMigrationLoop hashFn cpn files tenants s).dbs t).unreachable = false ∧
    ((runMigrationLoop hashFn cpn files tenants s).dbs t).trackingExists = true ∧
    countCheckpointRows cpn ((runMigrationLoop hashFn cpn files tenants s).dbs t).history
        + (s.trace.filter (fun p => p.2 == t)).length
      = countCheckpointRows cpn (s.dbs t).history
        + ((runMigrationLoop hashFn cpn files tenants s).trace.filter
            (fun p => p.2 == t)).length ∧
    (∀ n, n ≠ cpn →
      countCheckpointRows n ((runMigrationLoop hashFn cpn files tenants s).dbs t).history
        = countCheckpointRows n (s.dbs t).history) := by
  refine foldl_preserves (fun s2 =>
      ((s2.dbs t).unreachable = false) ∧ ((s2.dbs t).trackingExists = true) ∧
      (countCheckpointRows cpn (s2.dbs t).history
          + (s.trace.filter (fun p => p.2 == t)).length
        = countCheckpointRows cpn (s.dbs t).history
          + (s2.trace.filter (fun p => p.2 == t)).length) ∧
      (∀ n, n ≠ cpn → countCheckpointRows n (s2.dbs t).history
        = countCheckpointRows n (s.dbs t).history))
    (stepFile hashFn cpn tenants) ?_ files s ⟨hu, ht, rfl, fun n _ => rfl⟩
  intro s2 f h2
  refine foldl_preserves (fun s2 =>
      ((s2.dbs t).unreachable = false) ∧ ((s2.dbs t).trackingExists = true) ∧
      (countCheckpointRows cpn (s2.dbs t).history
          + (s.trace.filter (fun p => p.2 == t)).length
        = countCheckpointRows cpn (s.dbs t).history
          + (s2.trace.filter (fun p => p.2 == t)).length) ∧
      (∀ n, n ≠ cpn → countCheckpointRows n (s2.dbs t).history
        = countCheckpointRows n (s.dbs t).history))
    (stepTenant hashFn cpn f) ?_ tenants s2 h2
  intro s3 x h3
  obtain ⟨b1, b2, b3, b4⟩ := h3
  obtain ⟨c1, c2, c3, c4⟩ := stepTenant_counts_any hashFn cpn f s3 x t b1 b2
  refine ⟨c1, c2, ?_, fun n hn => (c4 n hn).trans (b4 n hn)⟩
  omega

/-- Conclusion of claim C7: the run uses the single checkpoint name
`pre_migration_<run-timestamp>` chosen once; on a reachable tenant the
final tracking table holds exactly one more checkpoint row with that name
per attempt on the tenant — appended immediately before the attempt, even
when identically named checkpoint rows already exist — and checkpoint
rows under any other name are exactly the pre-existing ones. -/
def CheckpointPerAttemptSpec (hashFn : String → String) (cfg : RunConfig)
    (t : String) : Prop :=
  (run_all_tenant_migrations hashFn cfg).checkpoint_name
    = "pre_migration_" ++ cfg.runTimestamp ∧
  countCheckpointRows (run_all_tenant_migrations hashFn cfg).checkpoint_name
      ((run_all_tenant_migrations hashFn cfg).finalState.dbs t).history
    = countCheckpointRows (run_all_tenant_migrations hashFn cfg).checkpoint_name
        (cfg.dbs t).history
      + ((run_all_tenant_migrations hashFn cfg).finalState.trace.filter
          (fun p => p.2 == t)).length ∧
  (∀ n, n ≠ (run_all_tenant_migrations hashFn cfg).checkpoint_name →
    countCheckpointRows n
        ((run_all_tenant_migrations hashFn cfg).finalState.dbs t).history
      = countCheckpointRows n (cfg.dbs t).history)

/-- C7: a checkpoint record is appended to the tenant tracking table for
every (unit, tenant) attempt, immediately before the attempt, even when an
identically named checkpoint already exists, and all checkpoints of one
run share the single name `pre_migration_<run-timestamp>` chosen once at
the start of the run; counted here per tenant against the trace of
attempts. -/
theorem c7_checkpoint_per_attempt (hashFn : String → String) (cfg : RunConfig)
    (t : String) (rows : List String)
    (hc : cfg.credsOk = true) (hr : cfg.registry = some rows)
    (htm : t ∈ get_tenant_databases rows)
    (hu : (cfg.dbs t).unreachable = false)
    (hf : get_tenant_migration_files cfg.migrationsDirExists cfg.globbedFiles ≠ []) :
    CheckpointPerAttemptSpec hashFn cfg t := by
  have htenne : (get_tenant_databases rows).isEmpty = false := by
    rw [← Bool.not_eq_true, List.isEmpty_iff]
    exact List.ne_nil_of_mem htm
  have hfilne : (get_tenant_migration_files cfg.migrationsDirExists
      cfg.globbedFiles).isEmpty = false := by
    rw [← Bool.not_eq_true, List.isEmpty_iff]
    exact hf
  have hinit : (initTracking cfg.dbs (get_tenant_databases rows)) t
      = { cfg.dbs t with trackingExists := true } :=
    initTracking_reachable cfg.dbs t hu (get_tenant_databases rows) cfg.dbs rfl htm
  have hbase1 : ((initialRunState (initTracking cfg.dbs
      (get_tenant_databases rows))).dbs t).unreachable = false := by
    show ((initTracking cfg.dbs (get_tenant_databases rows)) t).unreachable = false
    rw [hinit]
    exact hu
  have hbase2 : ((initialRunState (initTracking cfg.dbs
      (get_tenant_databases rows))).dbs t).trackingExists = true := by
    show ((initTracking cfg.dbs (get_tenant_databases rows)) t).trackingExists = true
    rw [hinit]
  obtain ⟨l1, l2, l3, l4⟩ := loop_counts hashFn
    ("pre_migration_" ++ cfg.runTimestamp) t
    (get_tenant_migration_files cfg.migrationsDirExists cfg.globbedFiles)
    (get_tenant_databases rows)
    (initialRunState (initTracking cfg.dbs (get_tenant_databases rows)))
    hbase1 hbase2
  have hhist : ((initialRunState (initTracking cfg.dbs
      (get_tenant_databases rows))).dbs t).history = (cfg.dbs t).history := by
    show ((initTracking cfg.dbs (get_tenant_databases rows)) t).history
      = (cfg.dbs t).history
    rw [hinit]
  rw [hhist] at l3 l4
  unfold CheckpointPerAttemptSpec
  simp only [run_all_tenant_migrations, hc, Bool.not_true, Bool.false_eq_true,
    if_false, hr, htenne, hfilne]
  refine ⟨trivial, ?_, l4⟩
  simpa using l3

theorem c7_checkpoint_per_attempt_witness :
    CheckpointPerAttemptSpec exHash exCfg "t1" :=
  c7_checkpoint_per_attempt exHash exCfg "t1" ["t1"] rfl rfl (by decide) (by decide)
    (List.cons_ne_nil exF1 [exF2])

/-- Conclusion of claim C8: the registry list is sorted ascending, the
catalog is sorted ascending by filename with the package marker excluded,
and the trace of attempted (unit, tenant) pairs is an in-order selection
of the catalog-major, tenant-minor product — units in ascending name
order, tenants in ascending identifier order within each unit. -/
def OrderingSpec (hashFn : String → String) (cfg : RunConfig)
    (rows : List String) : Prop :=
  List.Sorted (fun a b => strLe a b = true) (get_tenant_databases rows) ∧
  List.Sorted (fun a b : MigrationFile => strLe a.name b.name = true)
    (get_tenant_migration_files cfg.migrationsDirExists cfg.globbedFiles) ∧
  (∀ f ∈ get_tenant_migration_files cfg.migrationsDirExists cfg.globbedFiles,
    f.name ≠ "__init__.py") ∧
  (run_all_tenant_migrations hashFn cfg).finalState.trace.Sublist
    ((get_tenant_migration_files cfg.migrationsDirExists cfg.globbedFiles).flatMap
      (fun f => (get_tenant_databases rows).map (fun u => (f.name, u))))

/-- C8: migration units are attempted in ascending lexicographic order of
their file names (with `__init__.py` excluded from the catalog), and
within each unit tenants are attempted in ascending identifier order as
returned by the registry. -/
theorem c8_ordering (hashFn : String → String) (cfg : RunConfig)
    (rows : List String) (hr : cfg.registry = some rows) :
    OrderingSpec hashFn cfg rows := by
  refine ⟨List.sorted_insertionSort _ _, ?_, ?_, ?_⟩
  · unfold get_tenant_migration_files
    split
    · exact List.sorted_insertionSort _ _
    · exact List.sorted_nil
  · intro f hf
    unfold get_tenant_migration_files at hf
    split at hf
    · have hmem := (List.mem_insertionSort _).mp hf
      have hflt := List.mem_filter.mp hmem
      simpa using hflt.2
    · cases hf
  · cases hcred : cfg.credsOk with
    | false =>
      simp [run_all_tenant_migrations, hcred, initialRunState, List.nil_sublist]
    | true =>
      cases hten : (get_tenant_databases rows).isEmpty with
      | true =>
        simp [run_all_tenant_migrations, hcred, hr, hten, initialRunState,
          List.nil_sublist]
      | false =>
        cases hfil : (get_tenant_migration_files cfg.migrationsDirExists
            cfg.globbedFiles).isEmpty with
        | true =>
          simp [run_all_tenant_migrations, hcred, hr, hten, hfil, initialRunState,
            List.nil_sublist]
        | false =>
          obtain ⟨ext, hext, hsub⟩ := loop_trace_ext hashFn
            ("pre_migration_" ++ cfg.runTimestamp) (get_tenant_databases rows)
            (get_tenant_migration_files cfg.migrationsDirExists cfg.globbedFiles)
            (initialRunState (initTracking cfg.dbs (get_tenant_databases rows)))
          simp only [run_all_tenant_migrations, hcred, Bool.not_true,
            Bool.false_eq_true, if_false, hr, hten, hfil]
          rw [hext]
          simpa using hsub

theorem c8_ordering_witness : OrderingSpec exHash exCfg ["t1"] :=
  c8_ordering exHash exCfg ["t1"] rfl

/-- C9: with credentials configured, the entry point exits 0 iff the
registry was reachable and no tenant ended the run in the failed list; an
empty tenant list or an empty migration catalog yields trivial success
(exit 0), while an unreachable registry yields exit 1. -/
theorem c9_exit_code (hashFn : String → String) (cfg : RunConfig)
    (hc : cfg.credsOk = true) :
    (main_exit_code hashFn cfg = 0 ↔
      cfg.registry ≠ none ∧
      (run_all_tenant_migrations hashFn cfg).finalState.failed_dbs = []) ∧
    (cfg.registry = none → main_exit_code hashFn cfg = 1) ∧
    (∀ rows, cfg.registry = some rows → get_tenant_databases rows = [] →
      main_exit_code hashFn cfg = 0) ∧
    (∀ rows, cfg.registry = some rows →
      get_tenant_migration_files cfg.migrationsDirExists cfg.globbedFiles = [] →
      main_exit_code hashFn cfg = 0) := by
  cases hreg : cfg.registry with
  | none =>
    refine ⟨?_, fun _ => ?_, fun rows h => ?_, fun rows h => ?_⟩
    · simp [main_exit_code, run_all_tenant_migrations, hc, hreg]
    · simp [main_exit_code, run_all_tenant_migrations, hc, hreg]
    · cases h
    · cases h
  | some rows0 =>
    cases hten : (get_tenant_databases rows0).isEmpty with
    | true =>
      refine ⟨?_, fun h => ?_, fun rows h hten2 => ?_, fun rows h hfil2 => ?_⟩
      · simp [main_exit_code, run_all_tenant_migrations, hc, hreg, hten,
          initialRunState]
      · cases h
      · simp [main_exit_code, run_all_tenant_migrations, hc, hreg, hten]
      · simp [main_exit_code, run_all_tenant_migrations, hc, hreg, hten]
    | false =>
      cases hfil : (get_tenant_migration_files cfg.migrationsDirExists
          cfg.globbedFiles).isEmpty with
      | true =>
        refine ⟨?_, fun h => ?_, fun rows h hten2 => ?_, fun rows h hfil2 => ?_⟩
        · simp [main_exit_code, run_all_tenant_migrations, hc, hreg, hten, hfil,
            initialRunState]
        · cases h
        · injection h with h
          subst h
          rw [hten2] at hten
          simp at hten
        · simp [main_exit_code, run_all_tenant_migrations, hc, hreg, hten, hfil]
      | false =>
        have hrun : run_all_tenant_migrations hashFn cfg =
            { success := (runMigrationLoop hashFn
                ("pre_migration_" ++ cfg.runTimestamp)
                (get_tenant_migration_files cfg.migrationsDirExists cfg.globbedFiles)
                (get_tenant_databases rows0)
                (initialRunState (initTracking cfg.dbs
                  (get_tenant_databases rows0)))).failed_dbs.isEmpty
              finalState := runMigrationLoop hashFn
                ("pre_migration_" ++ cfg.runTimestamp)
                (get_tenant_migration_files cfg.migrationsDirExists cfg.globbedFiles)
                (get_tenant_databases rows0)
                (initialRunState (initTracking cfg.dbs (get_tenant_databases rows0)))
              checkpoint_name := "pre_migration_" ++ cfg.runTimestamp } := by
          simp only [run_all_tenant_migrations, hc, Bool.not_true,
            Bool.false_eq_true, if_false, hreg, hten, hfil]
        refine ⟨?_, fun h => ?_, fun rows h hten2 => ?_, fun rows h hfil2 => ?_⟩
        · unfold main_exit_code
          rw [hrun]
          cases hfe : (runMigrationLoop hashFn
              ("pre_migration_" ++ cfg.runTimestamp)
              (get_tenant_migration_files cfg.migrationsDirExists cfg.globbedFiles)
              (get_tenant_databases rows0)
              (initialRunState (initTracking cfg.dbs
                (get_tenant_databases rows0)))).failed_dbs.isEmpty with
          | true => simp [hreg, List.isEmpty_iff.mp hfe]
          | false =>
            simp only [Bool.false_eq_true, if_false]
            constructor
            · intro h; cases h
            · rintro ⟨-, hnil⟩
              rw [hnil] at hfe
              simp at hfe
        · cases h
        · injection h with h
          subst h
          rw [hten2] at hten
          simp at hten
        · rw [hfil2] at hfil
          simp at hfil

theorem c9_exit_code_witness :
    (main_exit_code exHash exCfg = 0 ↔
      exCfg.registry ≠ none ∧
      (run_all_tenant_migrations exHash exCfg).finalState.failed_dbs = []) ∧
    (exCfg.registry = none → main_exit_code exHash exCfg = 1) ∧
    (∀ rows, exCfg.registry = some rows → get_tenant_databases rows = [] →
      main_exit_code exHash exCfg = 0) ∧
    (∀ rows, exCfg.registry = some rows →
      get_tenant_migration_files exCfg.migrationsDirExists exCfg.globbedFiles = [] →
      main_exit_code exHash exCfg = 0) :=
  c9_exit_code exHash exCfg rfl
